import Mathlib

/-!
Verification of the Shopify storefront insights extraction pipeline
(`src/app.py`) against its natural-language specification.

The source is shallowly embedded: Python strings are Lean `String`s
(operated on through their underlying `List Char`, so that everything
kernel-evaluates), Python dictionaries are association lists in insertion
order, the network is an explicit oracle `Fetch := String → Option HttpResp`
(`none` models a connection/timeout failure), and a Python exception that
escapes a function is an `Except` error value.  Python `float` values
arising from prices are modelled as exact decimals (`Dec`): price strings
are decimal literals, parsing is monotone, so min/max ordering agrees with
the IEEE doubles the source manipulates.  The Python `re.findall` scan for the two
concrete regexes of the source is implemented as an explicit backtracking
matcher with the same leftmost / greedy semantics.
-/

/-! ### Python string primitives (ASCII-faithful, kernel-computable) -/

/-- Python truthiness-relevant whitespace for `str.strip` (ASCII subset). -/
def isPySpace (c : Char) : Bool :=
  c = ' ' || c = '\t' || c = '\n' || c = '\r' || c = '\x0b' || c = '\x0c'

/-- `str.strip()` on both ends. -/
def pyStrip (s : String) : String :=
  String.mk (((s.data.dropWhile isPySpace).reverse.dropWhile isPySpace).reverse)

/-- `str.lower()` (ASCII). -/
def pyLower (s : String) : String :=
  String.mk (s.data.map Char.toLower)

/-- `str.startswith(pre)`. -/
def pyStartsWith (s pre : String) : Bool :=
  pre.data.isPrefixOf s.data

/-- Occurrence of `sub` inside `s`, over char lists (structural recursion). -/
def subOccurs (sub : List Char) : List Char → Bool
  | [] => sub.isEmpty
  | c :: rest => sub.isPrefixOf (c :: rest) || subOccurs sub rest

/-- Python `sub in s` substring test. -/
def pyIn (sub s : String) : Bool :=
  subOccurs sub.data s.data

/-- Auxiliary for `str.split(sep)` with nonempty `sep`; fuel-driven so it
kernel-reduces. -/
def pySplitAux (sep : List Char) : Nat → List Char → List Char → List (List Char)
  | _, [], acc => [acc.reverse]
  | 0, s, acc => [acc.reverse ++ s]
  | fuel+1, c :: rest, acc =>
    if sep.isPrefixOf (c :: rest) then
      acc.reverse :: pySplitAux sep fuel ((c :: rest).drop sep.length) []
    else
      pySplitAux sep fuel rest (c :: acc)

/-- `str.split(sep)` for a nonempty separator (the only uses in the source). -/
def pySplit (s sep : String) : List String :=
  if sep.data.isEmpty then [s]
  else (pySplitAux sep.data s.data.length s.data []).map String.mk

/-- `s[:n]` Python slicing on code points. -/
def pyTruncate (s : String) (n : Nat) : String :=
  String.mk (s.data.take n)

/-- `sep.join(parts)`. -/
def pyJoin (sep : String) : List String → String
  | [] => ""
  | [s] => s
  | s :: rest => s ++ sep ++ pyJoin sep rest

/-- `str.rstrip("/")`. -/
def rstripSlash (s : String) : String :=
  String.mk ((s.data.reverse.dropWhile (· = '/')).reverse)

/-- `str.strip("/")`. -/
def stripSlashes (s : String) : String :=
  String.mk (((s.data.dropWhile (· = '/')).reverse.dropWhile (· = '/')).reverse)

/-- `len(re.sub(r"\D", "", p))`: number of digit characters. -/
def digitCount (s : String) : Nat :=
  s.data.countP Char.isDigit

/-! ### Exact decimals standing in for Python floats -/

/-- An exact decimal `num / 10 ^ exp`.  Stands in for the Python `float`s
the source derives from price strings; decimal-literal parsing is exact
here and IEEE rounding is monotone, so all min/max/ordering facts agree. -/
structure Dec where
  num : Int
  exp : Nat
deriving DecidableEq

/-- Order on decimals by cross-multiplication with the (positive)
denominators `10 ^ exp`. -/
def Dec.leB (a b : Dec) : Bool :=
  decide (a.num * (10 : Int) ^ b.exp ≤ b.num * (10 : Int) ^ a.exp)

/-- Strict order on decimals. -/
def Dec.ltB (a b : Dec) : Bool :=
  decide (a.num * (10 : Int) ^ b.exp < b.num * (10 : Int) ^ a.exp)

/-- Propositional form of `Dec.leB`. -/
def Dec.LeP (a b : Dec) : Prop :=
  a.num * (10 : Int) ^ b.exp ≤ b.num * (10 : Int) ^ a.exp

/-- Python `min` over a nonempty list: keep the current value unless a
later element is strictly smaller. -/
def pyMin (q : Dec) (qs : List Dec) : Dec :=
  qs.foldl (fun cur x => if Dec.ltB x cur then x else cur) q

/-- Python `max` over a nonempty list. -/
def pyMax (q : Dec) (qs : List Dec) : Dec :=
  qs.foldl (fun cur x => if Dec.ltB cur x then x else cur) q

/-! ### Python `float(str)` parsing (finite decimal literals) -/

/-- Numeric value of a digit run. -/
def digitsToNat (ds : List Char) : Nat :=
  ds.foldl (fun a c => 10 * a + (c.toNat - '0'.toNat)) 0

/-- Exponent suffix of a float literal: empty, or `e`/`E` followed by an
optionally signed digit run.  Returns the signed exponent. -/
def parseExpPart : List Char → Option Int
  | [] => some 0
  | 'e' :: rest => parseExpNum rest
  | 'E' :: rest => parseExpNum rest
  | _ => none
where
  parseExpNum : List Char → Option Int
    | '+' :: rest => parseExpDigits rest false
    | '-' :: rest => parseExpDigits rest true
    | cs => parseExpDigits cs false
  parseExpDigits (cs : List Char) (neg : Bool) : Option Int :=
    let ds := cs.takeWhile Char.isDigit
    if ds.isEmpty || !(cs.dropWhile Char.isDigit).isEmpty then none
    else some (if neg then -(digitsToNat ds : Int) else (digitsToNat ds : Int))

/-- Scale a decimal by `10 ^ e`. -/
def Dec.scale (d : Dec) (e : Int) : Dec :=
  match e with
  | .ofNat n => { num := d.num * (10 : Int) ^ n, exp := d.exp }
  | .negSucc n => { num := d.num, exp := d.exp + (n + 1) }

/-- Unsigned part of a float literal: digits, optional fractional part,
optional exponent. -/
def parseUnsignedFloat (cs : List Char) : Option Dec :=
  let ip := cs.takeWhile Char.isDigit
  let rest1 := cs.dropWhile Char.isDigit
  match rest1 with
  | '.' :: rest2 =>
    let fp := rest2.takeWhile Char.isDigit
    let rest3 := rest2.dropWhile Char.isDigit
    if ip.isEmpty && fp.isEmpty then none
    else
      (parseExpPart rest3).map fun e =>
        Dec.scale { num := (digitsToNat ip * 10 ^ fp.length + digitsToNat fp : Int),
                    exp := fp.length } e
  | _ =>
    if ip.isEmpty then none
    else (parseExpPart rest1).map fun e => Dec.scale { num := (digitsToNat ip : Int), exp := 0 } e

/-- Python `float(s)` on finite decimal literals (`inf`/`nan` and digit
underscores are not produced by price feeds and are not modelled). -/
def pyFloatOfString (s : String) : Option Dec :=
  match (pyStrip s).data with
  | [] => none
  | '+' :: rest => parseUnsignedFloat rest
  | '-' :: rest => (parseUnsignedFloat rest).map fun d => { d with num := -d.num }
  | cs => parseUnsignedFloat cs

/-! ### Catalog data model (`/products.json` records) -/

/-- The value found under the variant `"price"` key.  `vnull` covers both a
JSON `null` and an absent key (the Python `v.get("price")` call returns `None` for
both); `vother` is any truthy value `float()` rejects (list, dict, ...). -/
inductive PriceVal
  | vnull
  | vstr (s : String)
  | vnum (d : Dec)
  | vother
deriving DecidableEq

/-- One entry of the record `"variants"` list: a dict (only its price is
relevant to normalization) or a non-dict value, on which `v.get` raises. -/
inductive VariantRec
  | vdict (price : PriceVal)
  | nonDictV
deriving DecidableEq

/-- The `"variants"` field: a list, or a truthy non-list value on which
iteration raises inside the price `try` block. -/
inductive VariantsField
  | listv (vs : List VariantRec)
  | nonList
deriving DecidableEq

/-- The `"tags"` field shapes the source distinguishes. -/
inductive TagsField
  | tstr (s : String)
  | tlist (l : List String)
  | tmissing
  | tother
deriving DecidableEq

/-- One entry of the `"images"` list. -/
inductive ImgItem
  | istr (s : String)
  | iobj (src : Option String)
  | iother
deriving DecidableEq

/-- The `"images"` field.  `falsy` covers absent/`None`/`[]`/`""`/`0`;
a nonempty string is indexable (`imgs[0]` is its first character); a truthy
non-indexable value makes `imgs[0]` raise outside any `try`. -/
inductive ImgsField
  | falsy
  | ilist (items : List ImgItem)
  | istrv (s : String)
  | truthyBad
deriving DecidableEq

/-- A raw product record that is a JSON object. -/
structure RawProductDict where
  id : Option Int := none
  title : Option String := none
  handle : Option String := none
  variants : VariantsField := .listv []
  tags : TagsField := .tmissing
  images : ImgsField := .falsy
  body_html : Option String := none
deriving DecidableEq

/-- A raw product record: a JSON object or some other JSON value (on which
every `p.get` raises). -/
inductive RawProduct
  | pdict (d : RawProductDict)
  | nonDict
deriving DecidableEq

/-- `v.get("price", 0) or 0`: Python `or` replaces a falsy price (empty
string or numeric zero) by `0`. -/
def pyOr0 : PriceVal → PriceVal
  | .vstr "" => .vnum { num := 0, exp := 0 }
  | .vnum d => if d.num = 0 then .vnum { num := 0, exp := 0 } else .vnum d
  | x => x

/-- `float(x)` on a price value; `none` models a raised exception. -/
def pyFloat : PriceVal → Option Dec
  | .vnull => none
  | .vstr s => pyFloatOfString s
  | .vnum d => some d
  | .vother => none

/-- The list comprehension
`[float(v.get("price", 0) or 0) for v in variants if v.get("price") is not None]`:
`none` models an exception escaping the comprehension (non-dict variant or
unparseable price). -/
def collectPrices : List VariantRec → Option (List Dec)
  | [] => some []
  | .nonDictV :: _ => none
  | .vdict pv :: rest =>
    match pv with
    | .vnull => collectPrices rest
    | _ =>
      match pyFloat (pyOr0 pv) with
      | none => none
      | some d => (collectPrices rest).map (d :: ·)

/-- Price derivation for one record (the `try`/`except: pass` block of
`try_products_json`): any exception leaves both prices `None`. -/
def derivePrices : VariantsField → Option Dec × Option Dec
  | .nonList => (none, none)
  | .listv vs =>
    match collectPrices vs with
    | none => (none, none)
    | some [] => (none, none)
    | some (d :: ds) => (some (pyMin d ds), some (pyMax d ds))

/-! ### Pages, HTTP responses, and the network oracle -/

/-- An anchor element: raw `href` attribute and visible text. -/
structure Anchor where
  href : String
  text : String
deriving DecidableEq

/-- A question-bearing element (`h2`/`h3`/`h4`/`dt`/`summary`) inside a
"faq" container: its stripped text, the text of its next sibling (if any),
and the text of its parent (if any). -/
structure QElem where
  text : String
  nextSibling : Option String
  parentText : Option String
deriving DecidableEq

/-- An element whose `class` or `id` matches the pattern `faq`
(case-insensitive), exposing its question-bearing descendants in document
order. -/
structure FaqContainer where
  questions : List QElem
deriving DecidableEq

/-- A `details` disclosure element: the stripped text of its `summary` child (if
a summary exists) and its own full text. -/
structure DetailsElem where
  summaryText : Option String
  fullText : String
deriving DecidableEq

/-- The FAQ-relevant view of a parsed document: the concatenation of the
class-matching and id-matching "faq" containers (the order the two
`find_all` calls produce), and all `details` elements. -/
structure FaqDoc where
  faqContainers : List FaqContainer := []
  detailsElems : List DetailsElem := []
deriving DecidableEq

/-- The parsed (BeautifulSoup) view of a fetched page body. -/
structure PageData where
  title : Option String := none
  metaDescription : Option String := none
  anchors : List Anchor := []
  strippedStrings : List String := []
  rawText : String := ""
  faqDoc : FaqDoc := {}
deriving DecidableEq

/-- The result of `r.json()` on a response body, as far as
`try_products_json` inspects it. -/
inductive JsonBody
  | parseError
  | noProducts
  | dictProducts (ps : List RawProduct)
deriving DecidableEq

/-- An HTTP response: status code plus the two views of its body the
source takes (DOM and JSON). -/
structure HttpResp where
  status : Nat
  page : PageData := {}
  json : JsonBody := .parseError

/-- The network oracle: `none` is a connection/timeout failure. -/
def Fetch : Type := String → Option HttpResp

/-- Modelled from the spec: the Page Fetcher contract of `safe_get`
(`requests.get` + `raise_for_status`, an external collaborator) signals
`Unreachable` for connection/timeout failures and `HttpError` for non-2xx
responses; both raise, so the caller sees `none`. -/
def safe_get (fetch : Fetch) (url : String) : Option HttpResp :=
  match fetch url with
  | none => none
  | some r => if 200 ≤ r.status ∧ r.status ≤ 299 then some r else none

/-- `normalize_base`: `scheme://netloc` of a URL via `urlparse`. -/
def normalize_base (url : String) : String :=
  match pySplit url "://" with
  | [_] => "://"
  | scheme :: rest => scheme ++ "://" ++ ((pySplit (pyJoin "://" rest) "/").headD "")
  | [] => "://"

/-- `urljoin(base, url)` restricted to the shapes the source produces:
`base` is always an origin `scheme://netloc` and `url` is an absolute URL,
an absolute path, or a bare relative path. -/
def pyUrljoin (base url : String) : String :=
  if url = "" then base
  else if pyStartsWith url "/" then base ++ url
  else base ++ "/" ++ url

/-- Resolution of an anchor href as the source writes it:
`href if href.startswith("http") else urljoin(base, href)`. -/
def resolveHref (base href : String) : String :=
  if pyStartsWith href "http" then href else pyUrljoin base href

/-! ### Catalog resolver (`try_products_json`) -/

/-- Acceptance test of one catalog probe: a 200 response whose body parses
as a JSON object containing a `"products"` field. -/
def probeAccept : Option HttpResp → Option (List RawProduct)
  | none => none
  | some r =>
    if r.status = 200 then
      match r.json with
      | .dictProducts ps => some ps
      | _ => none
    else none

/-- The probe loop of `try_products_json`: first accepted endpoint wins
(`break`); a failed fetch or parse is swallowed and the next URL tried. -/
def probeLoop (fetch : Fetch) : List String → List RawProduct
  | [] => []
  | url :: rest =>
    match probeAccept (fetch url) with
    | some ps => ps
    | none => probeLoop fetch rest

/-- The ordered probe URL list of `try_products_json`. -/
def catalogProbeUrls (base_url : String) : List String :=
  [pyUrljoin base_url "/products.json?limit=250", pyUrljoin base_url "/products.json"]

/-- Raw product records obtained by probing the catalog endpoints. -/
def probeProducts (fetch : Fetch) (base_url : String) : List RawProduct :=
  probeLoop fetch (catalogProbeUrls base_url)

/-- Tags after normalization: a string list, or a shape Pydantic later
rejects (`tags` neither a string nor a list). -/
inductive TagsNorm
  | tok (l : List String)
  | tinvalid
deriving DecidableEq

/-- A normalized product dict as built by `try_products_json` (also used
for the placeholder entries the hero matcher synthesizes). -/
structure NormProduct where
  id : Option Int := none
  title : Option String := none
  handle : Option String := none
  url : Option String := none
  variants : VariantsField := .listv []
  tags : TagsNorm := .tok []
  image : Option String := none
  body_html : Option String := none
  price_min : Option Dec := none
  price_max : Option Dec := none
deriving DecidableEq

/-- First-image extraction: `imgs = p.get("images") or []` then
`imgs[0]` dispatch on `str`/`dict`; `none` in the `Except` sense models the
uncaught exception raised by indexing a truthy non-sequence. -/
def firstImage : ImgsField → Except Unit (Option String)
  | .falsy => .ok none
  | .ilist [] => .ok none
  | .ilist (i :: _) =>
    match i with
    | .istr s => .ok (some s)
    | .iobj src => .ok src
    | .iother => .ok none
  | .istrv s =>
    match s.data with
    | [] => .ok none
    | c :: _ => .ok (some (String.mk [c]))
  | .truthyBad => .error ()

/-- Tags normalization: split a comma-joined string, keep a list as-is,
default a missing field to `[]`, and pass any other shape through (Pydantic
rejects it later). -/
def normalizeTags : TagsField → TagsNorm
  | .tstr s => .tok (pySplit s ",")
  | .tlist l => .tok l
  | .tmissing => .tok []
  | .tother => .tinvalid

/-- Normalization of one raw record inside the loop of `try_products_json`.
An `.error` is an exception escaping the loop body (it aborts the whole
catalog): `p.get` on a non-dict record, or indexing a truthy non-list
`images` value.  Price-derivation failures are absorbed by the inner
`try`/`except` and leave both prices `None`. -/
def normalizeRecord (base_url : String) : RawProduct → Except Unit NormProduct
  | .nonDict => .error ()
  | .pdict d =>
    let prices := derivePrices d.variants
    match firstImage d.images with
    | .error _ => .error ()
    | .ok img =>
      .ok {
        id := d.id
        title := d.title
        handle := d.handle
        url := match d.handle with
          | some h => if h ≠ "" then some (pyUrljoin base_url ("/products/" ++ h)) else none
          | none => none
        variants := d.variants
        tags := normalizeTags d.tags
        image := img
        body_html := d.body_html
        price_min := prices.1
        price_max := prices.2 }

/-- The normalization loop over all raw records; the first escaping
exception aborts the whole catalog. -/
def normalizeAll (base_url : String) : List RawProduct → Except Unit (List NormProduct)
  | [] => .ok []
  | p :: rest =>
    match normalizeRecord base_url p with
    | .error e => .error e
    | .ok np =>
      match normalizeAll base_url rest with
      | .error e => .error e
      | .ok nps => .ok (np :: nps)

/-- `try_products_json` end to end: probe, then normalize. -/
def try_products_json (fetch : Fetch) (base_url : String) : Except Unit (List NormProduct) :=
  normalizeAll base_url (probeProducts fetch base_url)

/-- Pydantic validation of `Product(**p)` (line 226 of the source):
`variants` must be a list of dicts and `tags` a list of strings. -/
def productValid (p : NormProduct) : Bool :=
  (match p.variants with
   | .listv vs => vs.all fun v => match v with | .vdict _ => true | .nonDictV => false
   | .nonList => false)
  && (match p.tags with | .tok _ => true | .tinvalid => false)

/-! ### Link classifier (`extract_nav_links`) and role resolution -/

/-- Python dict assignment `d[k] = v`: overwrite in place if the key
exists (keeping its original position), else append. -/
def dictInsert (l : List (String × String)) (k v : String) : List (String × String) :=
  if (l.lookup k).isSome then
    l.map fun kv => if kv.1 = k then (k, v) else kv
  else l ++ [(k, v)]

/-- The contribution of one anchor to the link index. -/
def navStep (base : String) (links : List (String × String)) (a : Anchor) :
    List (String × String) :=
  let href := pyStrip a.href
  let text := pyStrip a.text
  if href = "" then links
  else if pyStartsWith href "#" then links
  else
    let full := resolveHref base href
    dictInsert links (if text = "" then full else text) full

/-- `extract_nav_links`: every anchor with a nonempty stripped href that
is not a pure fragment, keyed by stripped text (or the resolved URL when
the text is empty), last assignment winning per key. -/
def extract_nav_links (anchors : List Anchor) (base : String) : List (String × String) :=
  anchors.foldl (navStep base) []

/-- The privacy condition of `find_policy_pages`:
`"privacy" in k or "privacy" in url.lower()`. -/
def privacyCond (k u : String) : Bool :=
  pyIn "privacy" (pyLower k) || pyIn "privacy" (pyLower u)

/-- The returns condition of `find_policy_pages`: `"return" in k or
"refund" in k or "refund" in url.lower() or "returns" in url.lower()`. -/
def returnsCond (k u : String) : Bool :=
  pyIn "return" (pyLower k) || pyIn "refund" (pyLower k)
    || pyIn "refund" (pyLower u) || pyIn "returns" (pyLower u)

/-- The contribution of one link-index entry to the privacy/returns slots. -/
def polStep (pr : Option String × Option String) (kv : String × String) :
    Option String × Option String :=
  let pr1 := if privacyCond kv.1 kv.2 then (some kv.2, pr.2) else pr
  if returnsCond kv.1 kv.2 then (pr1.1, some kv.2) else pr1

/-- `find_policy_pages`: one pass over the link index, unconditionally
overwriting each of the two slots on a match. -/
def find_policy_pages (links : List (String × String)) : Option String × Option String :=
  links.foldl polStep (none, none)

/-- The contact condition of the step-8 scan:
`"contact" in key or "contact" in u.lower()`. -/
def contactCond (k u : String) : Bool :=
  pyIn "contact" (pyLower k) || pyIn "contact" (pyLower u)

/-- The about condition: `"about" in key or "about" in u.lower()`. -/
def aboutCond (k u : String) : Bool :=
  pyIn "about" (pyLower k) || pyIn "about" (pyLower u)

/-- The tracking condition: `"track" in key or "order" in key or
"tracking" in key` — the label only, never the URL. -/
def trackingCond (k _u : String) : Bool :=
  pyIn "track" (pyLower k) || pyIn "order" (pyLower k) || pyIn "tracking" (pyLower k)

/-- The blog condition: `"blog" in key or "/blogs" in u` — the raw,
not lower-cased, URL. -/
def blogCond (k u : String) : Bool :=
  pyIn "blog" (pyLower k) || pyIn "/blogs" u

/-- The FAQ condition of the step-9 scan:
`"faq" in (k or "").lower() or "/faq" in u.lower()`. -/
def faqCond (k u : String) : Bool :=
  pyIn "faq" (pyLower k) || pyIn "/faq" (pyLower u)

/-- The four role slots filled by the step-8 scan. -/
structure RoleUrls where
  contact : Option String := none
  about : Option String := none
  tracking : Option String := none
  blogs : Option String := none
deriving DecidableEq

/-- The contribution of one link-index entry to the four role slots. -/
def roleStep (r : RoleUrls) (kv : String × String) : RoleUrls :=
  let r1 := if contactCond kv.1 kv.2 then { r with contact := some kv.2 } else r
  let r2 := if aboutCond kv.1 kv.2 then { r1 with about := some kv.2 } else r1
  let r3 := if trackingCond kv.1 kv.2 then { r2 with tracking := some kv.2 } else r2
  if blogCond kv.1 kv.2 then { r3 with blogs := some kv.2 } else r3

/-- The step-8 scan over the link index: each matching entry
unconditionally overwrites its slot. -/
def roleScan (links : List (String × String)) : RoleUrls :=
  links.foldl roleStep {}

/-- The step-9 FAQ scan: iterate the index and `break` on the first
matching entry. -/
def faqScan : List (String × String) → Option String
  | [] => none
  | kv :: rest => if faqCond kv.1 kv.2 then some kv.2 else faqScan rest

/-- The URL of the last entry of the index satisfying `cond` — the value
an unconditional-overwrite scan leaves behind. -/
def lastMatch (cond : String → String → Bool) : List (String × String) → Option String
  | [] => none
  | kv :: rest =>
    match lastMatch cond rest with
    | some v => some v
    | none => if cond kv.1 kv.2 then some kv.2 else none

/-- The URL of the first entry of the index satisfying `cond`. -/
def firstMatch (cond : String → String → Bool) : List (String × String) → Option String
  | [] => none
  | kv :: rest => if cond kv.1 kv.2 then some kv.2 else firstMatch cond rest

/-! ### Social link extraction (`find_social_links`) -/

/-- The fixed platform hostname list `SOCIAL_HOSTS`. -/
def SOCIAL_HOSTS : List String :=
  ["instagram.com", "facebook.com", "tiktok.com", "twitter.com", "youtube.com",
   "pinterest.com", "linkedin.com"]

/-- `host.split(".")[0]`: the first label of the hostname. -/
def hostKey (host : String) : String :=
  (pySplit host ".").headD ""

/-- The contribution of one platform host for a given (stripped) href. -/
def socialHostStep (base href : String) (found : List (String × String)) (host : String) :
    List (String × String) :=
  if pyIn host href then
    let key := hostKey host
    if (found.lookup key).isSome then found
    else found ++ [(key, resolveHref base href)]
  else found

/-- The contribution of one anchor: its stripped href tested against every
platform host. -/
def socialAnchorStep (base : String) (found : List (String × String)) (a : Anchor) :
    List (String × String) :=
  SOCIAL_HOSTS.foldl (socialHostStep base (pyStrip a.href)) found

/-- `find_social_links`: for each anchor in document order, each matching
platform host records the resolved href under the first label of the host,
unless that key is already present. -/
def find_social_links (anchors : List Anchor) (base : String) : List (String × String) :=
  anchors.foldl (socialAnchorStep base) []

/-! ### FAQ extractor (`extract_faqs_from_page`) -/

/-- `str.replace(old, "")` for nonempty `old`: drop every occurrence. -/
def pyReplaceEmpty (s old : String) : String :=
  pyJoin "" (pySplit s old)

/-- Question/answer pair from one question-bearing element inside a "faq"
container: answer from the next sibling, else from the parent text with
the question removed; pairs with empty question text are dropped. -/
def qaOfQElem (q : QElem) : Option (String × String) :=
  let q_text := q.text
  let a_text :=
    match q.nextSibling with
    | some s => s
    | none =>
      match q.parentText with
      | some pt => pyStrip (pyReplaceEmpty pt q_text)
      | none => ""
  if q_text ≠ "" then some (q_text, a_text) else none

/-- Question/answer pair from one `details` element: question is the
summary text (empty if no summary, in which case the pair is dropped),
answer is the container text with the question removed. -/
def qaOfDetails (d : DetailsElem) : Option (String × String) :=
  let q_text := match d.summaryText with | some s => s | none => ""
  let a_text := pyStrip (pyReplaceEmpty d.fullText q_text)
  if q_text ≠ "" then some (q_text, a_text) else none

/-- `extract_faqs_from_page`: harvest the "faq" containers first; only if
they yield nothing, fall back to scanning all `details` elements. -/
def extract_faqs_from_page (doc : FaqDoc) : List (String × String) :=
  let faqs := (doc.faqContainers.map fun c => c.questions.filterMap qaOfQElem).flatten
  if faqs = [] then doc.detailsElems.filterMap qaOfDetails
  else faqs

/-! ### Pattern extractors: the two regexes of the source

`EMAIL_RE = ([a-zA-Z0-9_.+-]+@[a-zA-Z0-9-]+\.[a-zA-Z0-9-.]+)` and
`PHONE_RE = ((?:\+?\d{1,3}[-.\s]?)?(?:\(?\d{2,4}\)?[-.\s]?)?\d{5,12})`,
compiled to explicit matchers with the Python leftmost / greedy /
backtracking `findall` semantics (the single group spans the whole match,
so `findall` returns the matched text). -/

/-- `[a-zA-Z0-9_.+-]` (ASCII). -/
def isLocalChar (c : Char) : Bool :=
  c.isAlpha || c.isDigit || c = '_' || c = '.' || c = '+' || c = '-'

/-- `[a-zA-Z0-9-]`. -/
def isHostChar (c : Char) : Bool :=
  c.isAlpha || c.isDigit || c = '-'

/-- `[a-zA-Z0-9-.]`. -/
def isTailChar (c : Char) : Bool :=
  c.isAlpha || c.isDigit || c = '-' || c = '.'

/-- Match `EMAIL_RE` anchored at the start of `cs`; every character class
excludes its follower, so greedy matching needs no backtracking.  Returns
the match length. -/
def emailMatchAt (cs : List Char) : Option Nat :=
  let lp := cs.takeWhile isLocalChar
  if lp.isEmpty then none
  else
    match cs.drop lp.length with
    | '@' :: rest1 =>
      let hp := rest1.takeWhile isHostChar
      if hp.isEmpty then none
      else
        match rest1.drop hp.length with
        | '.' :: rest2 =>
          let tp := rest2.takeWhile isTailChar
          if tp.isEmpty then none
          else some (lp.length + 1 + hp.length + 1 + tp.length)
        | _ => none
    | _ => none

/-- `re.findall` scan: try a match at each position, emit it and resume
after its end, else advance one character.  Fuel-driven (the fuel is the
text length; every step consumes at least one character). -/
def findAllAux (matchAt : List Char → Option Nat) : Nat → List Char → List String
  | _, [] => []
  | 0, _ => []
  | fuel+1, cs@(_ :: rest) =>
    match matchAt cs with
    | some n => String.mk (cs.take n) :: findAllAux matchAt fuel (cs.drop (max n 1))
    | none => findAllAux matchAt fuel rest

/-- `EMAIL_RE.findall(text)`. -/
def emailFindAll (text : String) : List String :=
  findAllAux emailMatchAt text.data.length text.data

/-- `\s` of the separator class `[-.\s]` in the phone pattern (ASCII). -/
def isSepChar (c : Char) : Bool :=
  c = '-' || c = '.' || isPySpace c

/-- Alternative sequencing: each branch is a suffix with the length
consumed so far, tried in order against the continuation. -/
def seqOpt (branches : List (List Char × Nat)) (k : List Char → Option Nat) : Option Nat :=
  match branches with
  | [] => none
  | (cs, n) :: rest =>
    match k cs with
    | some m => some (n + m)
    | none => seqOpt rest k

/-- `c?` in greedy order: consume the optional character if present, then
fall back to not consuming it. -/
def optChar (cs : List Char) (c : Char) : List (List Char × Nat) :=
  match cs with
  | c1 :: rest => if c1 = c then [(rest, 1), (cs, 0)] else [(cs, 0)]
  | [] => [(cs, 0)]

/-- `p?` for a character class, in greedy order. -/
def optPred (cs : List Char) (p : Char → Bool) : List (List Char × Nat) :=
  match cs with
  | c1 :: rest => if p c1 then [(rest, 1), (cs, 0)] else [(cs, 0)]
  | [] => [(cs, 0)]

/-- `\d{k}` exactly: all of the first `k` characters are digits. -/
def dropDigits (cs : List Char) (k : Nat) : Option (List Char) :=
  if k ≤ cs.length ∧ (cs.take k).all Char.isDigit then some (cs.drop k) else none

/-- `\d{a..}` counted branches in greedy (descending) order. -/
def digitBranches (cs : List Char) (ks : List Nat) : List (List Char × Nat) :=
  ks.filterMap fun k => (dropDigits cs k).map (·, k)

/-- Final `\d{5,12}` of the phone pattern: greedy, nothing follows, so the
longest available run (capped at 12) wins when at least 5 digits remain. -/
def phoneFinal (cs : List Char) : Option Nat :=
  let n := (cs.takeWhile Char.isDigit).length
  if 5 ≤ n then some (min n 12) else none

/-- `(?:\(?\d{2,4}\)?[-.\s]?)` followed by the final digit run. -/
def phoneFromP2 (cs : List Char) : Option Nat :=
  seqOpt (optChar cs '(') fun cs1 =>
    seqOpt (digitBranches cs1 [4, 3, 2]) fun cs2 =>
      seqOpt (optChar cs2 ')') fun cs3 =>
        seqOpt (optPred cs3 isSepChar) phoneFinal

/-- The optional second group then the final run, in greedy order. -/
def phonePart2All (cs : List Char) : Option Nat :=
  match phoneFromP2 cs with
  | some n => some n
  | none => phoneFinal cs

/-- `(?:\+?\d{1,3}[-.\s]?)` followed by the rest of the pattern. -/
def phoneFromP1 (cs : List Char) : Option Nat :=
  seqOpt (optChar cs '+') fun cs1 =>
    seqOpt (digitBranches cs1 [3, 2, 1]) fun cs2 =>
      seqOpt (optPred cs2 isSepChar) phonePart2All

/-- Match `PHONE_RE` anchored at the start of `cs`: the optional first
group in greedy order, then the rest. -/
def phoneMatchAt (cs : List Char) : Option Nat :=
  match phoneFromP1 cs with
  | some n => some n
  | none => phonePart2All cs

/-- `PHONE_RE.findall(text)`. -/
def phoneFindAll (text : String) : List String :=
  findAllAux phoneMatchAt text.data.length text.data

/-- `find_emails_phones`: deduplicated emails, and deduplicated phone
candidates whose digit-only length is at least 6.  `list(set(...))` has
arbitrary order in Python; it is modelled by `List.dedup`. -/
def find_emails_phones (text : String) : List String × List String :=
  ((emailFindAll text).dedup,
   ((phoneFindAll text).filter fun p => 6 ≤ digitCount p).dedup)

/-! ### Profile assembler (`extract_brand_context`) -/

/-- `extract_text_from_url`: visible text of a fetched page, first 5000
stripped strings joined by spaces; any failure yields `""`. -/
def extract_text_from_url (fetch : Fetch) (url : String) : String :=
  match safe_get fetch url with
  | none => ""
  | some r => pyJoin " " (r.page.strippedStrings.take 5000)

/-- A conventional-path policy probe (`requests.get`, accepted only on a
200 status; connection failures are swallowed). -/
def probe200 (fetch : Fetch) (candidate : String) : Option String :=
  match fetch candidate with
  | some r => if r.status = 200 then some candidate else none
  | none => none

/-- The hero-matching test: the URL of the catalog entry must be truthy and its
slash-stripped form a substring of the link (or the truthy handle a
substring of the link). -/
def heroMatches (hl : String) (p : NormProduct) : Bool :=
  match p.url with
  | none => false
  | some pu =>
    pu ≠ "" &&
      (pyIn (rstripSlash pu) (rstripSlash hl)
        || (match p.handle with | some h => h ≠ "" && pyIn h hl | none => false))

/-- The placeholder entry synthesized for an unmatched homepage product
link: slug from the path segment after `/products/` (query stripped), the
raw link as URL. -/
def heroPlaceholder (hl : String) : NormProduct :=
  let handle := stripSlashes ((pySplit ((pySplit hl "/products/").getLastD "") "?").headD "")
  { handle := some handle, url := some hl }

/-- The distinct homepage anchor targets containing `/products/`.  The
source collects them in a Python `set` (arbitrary iteration order); the
model fixes a deterministic order via `dedup`. -/
def homeProductLinks (anchors : List Anchor) (base : String) : List String :=
  (anchors.filterMap fun a =>
    if pyIn "/products/" a.href then some (resolveHref base a.href) else none).dedup

/-- Hero products: first matching catalog entry, else a placeholder. -/
def hero_products_of (anchors : List Anchor) (base : String) (products : List NormProduct) :
    List NormProduct :=
  (homeProductLinks anchors base).map fun hl =>
    match products.find? (heroMatches hl) with
    | some p => p
    | none => heroPlaceholder hl

/-- Append the elements of `more` not already present (exact string
dedup), preserving order — `if e not in ...: append`. -/
def mergeNew (cur more : List String) : List String :=
  more.foldl (fun c e => if c.contains e then c else c ++ [e]) cur

/-- Merge emails/phones found on a secondary page text into the contact
sets; a `None` or empty text contributes nothing (`if text:`). -/
def mergeFromText (cur : List String × List String) : Option String → List String × List String
  | some t =>
    if t ≠ "" then
      let more := find_emails_phones t
      (mergeNew cur.1 more.1, mergeNew cur.2 more.2)
    else cur
  | none => cur

/-- Step 9: FAQ extraction, from the resolved FAQ page when its fetch
succeeds and yields pairs, else from the homepage document. -/
def resolveFaqs (fetch : Fetch) (links : List (String × String)) (homeDoc : FaqDoc) :
    List (String × String) :=
  let viaPage :=
    match faqScan links with
    | some fu =>
      match safe_get fetch fu with
      | some r => extract_faqs_from_page r.page.faqDoc
      | none => []
    | none => []
  if viaPage = [] then extract_faqs_from_page homeDoc else viaPage

/-- One optional entry of the important-links map. -/
def optEntry (k : String) : Option String → List (String × String)
  | some u => [(k, u)]
  | none => []

/-- Step 10: the important-links map, in the insertion order of the source. -/
def buildImportant (contact privacy returns tracking blogs : Option String) :
    List (String × String) :=
  optEntry "contact" contact ++ optEntry "privacy_policy" privacy
    ++ optEntry "return_refund_policy" returns ++ optEntry "order_tracking" tracking
    ++ optEntry "blogs" blogs

/-- One conditional raw-pages entry: only a truthy (nonempty) text is
stored, truncated to its first 5000 characters. -/
def addTextEntry (m : List (String × String)) (k : String) :
    Option String → List (String × String)
  | some t => if t ≠ "" then m ++ [(k, pyTruncate t 5000)] else m
  | none => m

/-- Step 11: the raw-pages debug map, in the insertion order of the source. -/
def buildRawPages (about contact privacy returns : Option String) :
    List (String × String) :=
  addTextEntry
    (addTextEntry (addTextEntry (addTextEntry [] "about" about) "contact" contact)
      "privacy_policy" privacy)
    "return_refund_policy" returns

/-- The two failure categories the caller can see: the distinct
"not reachable" failure (HTTP 401 in the source) and the generic internal
failure (HTTP 500). -/
inductive ExtractErr
  | notReachable
  | internal
deriving DecidableEq

/-- The normalized output record (`BrandContext`). -/
structure BrandContextM where
  website : String
  title : Option String
  description : Option String
  products : List NormProduct
  hero_products : List NormProduct
  privacy_policy : Option String
  return_refund_policy : Option String
  faqs : List (String × String)
  socials : List (String × String)
  contacts_emails : List String
  contacts_phones : List String
  important_links : List (String × String)
  raw_pages : List (String × String)
deriving DecidableEq

/-- The title extraction (`soup.title.string.strip()` when a title tag is
present). -/
def titleOf (doc : PageData) : Option String :=
  doc.title.map pyStrip

/-- The meta-description extraction (the `content` attribute must be
truthy). -/
def descriptionOf (doc : PageData) : Option String :=
  match doc.metaDescription with
  | some c => if c ≠ "" then some (pyStrip c) else none
  | none => none

/-- The privacy URL: the link-index match, else the conventional-path
probe. -/
def privacyUrlOf (fetch : Fetch) (base : String) (links : List (String × String)) :
    Option String :=
  match (find_policy_pages links).1 with
  | some u => some u
  | none => probe200 fetch (pyUrljoin base "/policies/privacy-policy")

/-- The returns URL: the link-index match, else the conventional-path
probe. -/
def returnsUrlOf (fetch : Fetch) (base : String) (links : List (String × String)) :
    Option String :=
  match (find_policy_pages links).2 with
  | some u => some u
  | none => probe200 fetch (pyUrljoin base "/policies/refund-policy")

/-- The contact sets after merging the about-page then the contact-page
texts into the homepage findings. -/
def contactsOf (fetch : Fetch) (rawText : String) (aboutUrl contactUrl : Option String) :
    List String × List String :=
  mergeFromText
    (mergeFromText (find_emails_phones rawText) (aboutUrl.map (extract_text_from_url fetch)))
    (contactUrl.map (extract_text_from_url fetch))

/-- Steps 2–11 of the pipeline, once the homepage document and the
validated catalog are in hand. -/
def assembleProfile (fetch : Fetch) (website_url base : String) (doc : PageData)
    (products : List NormProduct) : BrandContextM :=
  let nav_links := extract_nav_links doc.anchors base
  let privacy_url := privacyUrlOf fetch base nav_links
  let returns_url := returnsUrlOf fetch base nav_links
  let privacy_text := privacy_url.map (extract_text_from_url fetch)
  let returns_text := returns_url.map (extract_text_from_url fetch)
  let roles := roleScan nav_links
  let about_text := roles.about.map (extract_text_from_url fetch)
  let contact_text := roles.contact.map (extract_text_from_url fetch)
  { website := website_url
    title := titleOf doc
    description := descriptionOf doc
    products := products
    hero_products := hero_products_of doc.anchors base products
    privacy_policy := privacy_text
    return_refund_policy := returns_text
    faqs := resolveFaqs fetch nav_links doc.faqDoc
    socials := find_social_links doc.anchors base
    contacts_emails := (contactsOf fetch doc.rawText roles.about roles.contact).1
    contacts_phones := (contactsOf fetch doc.rawText roles.about roles.contact).2
    important_links :=
      buildImportant roles.contact privacy_url returns_url roles.tracking roles.blogs
    raw_pages := buildRawPages about_text contact_text privacy_text returns_text }

/-- `extract_brand_context`, the whole pipeline over the network oracle.
A homepage fetch failure is the distinct `notReachable` error (HTTP 401 in
the source); an exception escaping catalog normalization or model
validation is the generic `internal` error (HTTP 500); every other fetch
failure degrades to an absent/empty field. -/
def extract_brand_context (fetch : Fetch) (website_url : String) :
    Except ExtractErr BrandContextM :=
  let base := normalize_base website_url
  match safe_get fetch website_url with
  | none => .error .notReachable
  | some resp =>
    match try_products_json fetch base with
    | .error _ => .error .internal
    | .ok products =>
      if products.all productValid then
        .ok (assembleProfile fetch website_url base resp.page products)
      else .error .internal

/-! ## Supporting lemmas -/

theorem Dec.LeP_refl (a : Dec) : Dec.LeP a a := le_refl _

theorem Dec.LeP_of_ltB {a b : Dec} (h : Dec.ltB a b = true) : Dec.LeP a b :=
  le_of_lt (of_decide_eq_true h)

theorem Dec.LeP_of_not_ltB {a b : Dec} (h : Dec.ltB a b = false) : Dec.LeP b a :=
  Int.not_lt.mp (of_decide_eq_false h)

theorem Dec.LeP_trans {a b c : Dec} (h1 : Dec.LeP a b) (h2 : Dec.LeP b c) : Dec.LeP a c := by
  unfold Dec.LeP at h1 h2 ⊢
  have ha : (0 : Int) < 10 ^ a.exp := pow_pos (by norm_num) _
  have hb : (0 : Int) < 10 ^ b.exp := pow_pos (by norm_num) _
  have hc : (0 : Int) < 10 ^ c.exp := pow_pos (by norm_num) _
  nlinarith [mul_le_mul_of_nonneg_right h1 (le_of_lt hc),
    mul_le_mul_of_nonneg_right h2 (le_of_lt ha)]

/-- Python `min` returns a member of the list that is a lower bound. -/
theorem pyMin_spec : ∀ (ds : List Dec) (d : Dec),
    pyMin d ds ∈ d :: ds ∧ ∀ x ∈ d :: ds, Dec.LeP (pyMin d ds) x := by
  intro ds
  induction ds with
  | nil =>
    intro d
    refine ⟨by simp [pyMin], ?_⟩
    intro x hx
    simp only [List.mem_singleton] at hx
    simpa [pyMin, hx] using Dec.LeP_refl x
  | cons x rest ih =>
    intro d
    have hfold : pyMin d (x :: rest) = pyMin (if Dec.ltB x d then x else d) rest := by
      simp [pyMin, List.foldl]
    rcases ih (if Dec.ltB x d then x else d) with ⟨hmem, hbound⟩
    constructor
    · rw [hfold]
      rcases List.mem_cons.mp hmem with h | h
      · by_cases hlt : Dec.ltB x d = true
        · simp only [hlt, if_true] at h
          simp [hlt, h]
        · simp only [Bool.not_eq_true] at hlt
          simp only [hlt, Bool.false_eq_true, if_false] at h
          simp [hlt, h]
      · simp [h]
    · intro y hy
      rw [hfold]
      have hhead : Dec.LeP (pyMin (if Dec.ltB x d then x else d) rest)
          (if Dec.ltB x d then x else d) := hbound _ (List.mem_cons_self _ _)
      rcases List.mem_cons.mp hy with hyd | hy2
      · subst hyd
        by_cases hlt : Dec.ltB x y = true
        · simp only [hlt, if_true] at hhead ⊢
          exact Dec.LeP_trans hhead (Dec.LeP_of_ltB hlt)
        · simp only [Bool.not_eq_true] at hlt
          simpa [hlt] using hhead
      rcases List.mem_cons.mp hy2 with hyx | hyr
      · subst hyx
        by_cases hlt : Dec.ltB y d = true
        · simpa [hlt] using hhead
        · simp only [Bool.not_eq_true] at hlt
          simp only [hlt, Bool.false_eq_true, if_false] at hhead ⊢
          exact Dec.LeP_trans hhead (Dec.LeP_of_not_ltB hlt)
      · exact hbound _ (List.mem_cons_of_mem _ hyr)

/-- Python `max` returns a member of the list that is an upper bound. -/
theorem pyMax_spec : ∀ (ds : List Dec) (d : Dec),
    pyMax d ds ∈ d :: ds ∧ ∀ x ∈ d :: ds, Dec.LeP x (pyMax d ds) := by
  intro ds
  induction ds with
  | nil =>
    intro d
    refine ⟨by simp [pyMax], ?_⟩
    intro x hx
    simp only [List.mem_singleton] at hx
    simpa [pyMax, hx] using Dec.LeP_refl x
  | cons x rest ih =>
    intro d
    have hfold : pyMax d (x :: rest) = pyMax (if Dec.ltB d x then x else d) rest := by
      simp [pyMax, List.foldl]
    rcases ih (if Dec.ltB d x then x else d) with ⟨hmem, hbound⟩
    constructor
    · rw [hfold]
      rcases List.mem_cons.mp hmem with h | h
      · by_cases hlt : Dec.ltB d x = true
        · simp only [hlt, if_true] at h
          simp [hlt, h]
        · simp only [Bool.not_eq_true] at hlt
          simp only [hlt, Bool.false_eq_true, if_false] at h
          simp [hlt, h]
      · simp [h]
    · intro y hy
      rw [hfold]
      have hhead : Dec.LeP (if Dec.ltB d x then x else d)
          (pyMax (if Dec.ltB d x then x else d) rest) := hbound _ (List.mem_cons_self _ _)
      rcases List.mem_cons.mp hy with hyd | hy2
      · subst hyd
        by_cases hlt : Dec.ltB y x = true
        · simp only [hlt, if_true] at hhead ⊢
          exact Dec.LeP_trans (Dec.LeP_of_ltB hlt) hhead
        · simp only [Bool.not_eq_true] at hlt
          simpa [hlt] using hhead
      rcases List.mem_cons.mp hy2 with hyx | hyr
      · subst hyx
        by_cases hlt : Dec.ltB d y = true
        · simpa [hlt] using hhead
        · simp only [Bool.not_eq_true] at hlt
          simp only [hlt, Bool.false_eq_true, if_false] at hhead ⊢
          exact Dec.LeP_trans (Dec.LeP_of_not_ltB hlt) hhead
      · exact hbound _ (List.mem_cons_of_mem _ hyr)

/-- A variants list of nulls contributes no prices. -/
theorem collectPrices_all_null : ∀ vs : List VariantRec,
    (∀ v ∈ vs, v = VariantRec.vdict PriceVal.vnull) → collectPrices vs = some [] := by
  intro vs
  induction vs with
  | nil => intro _; rfl
  | cons v rest ih =>
    intro h
    have hv := h v (List.mem_cons_self _ _)
    subst hv
    simpa [collectPrices] using ih fun w hw => h w (List.mem_cons_of_mem _ hw)

/-! ## Claims -/

/-- The price derivation as the claim words it (for comparison only):
parse the price field of each variant as floating point, ignoring unparseable
or null values; min/max of whatever parsed. -/
def specPriceDerive (vs : List VariantRec) : Option Dec × Option Dec :=
  let parsed := vs.filterMap fun v =>
    match v with
    | .vdict pv =>
      match pv with
      | .vnull => none
      | _ => pyFloat pv
    | .nonDictV => none
  match parsed with
  | [] => (none, none)
  | d :: ds => (some (pyMin d ds), some (pyMax d ds))

/-- The variants list refuting claim C2: one cleanly parseable price and
one unparseable one. -/
def c2vars : List VariantRec :=
  [.vdict (.vstr "9.99"), .vdict (.vstr "x")]

/-- Claim C2, counterexample: on a record with variants priced `"9.99"`
and `"x"`, the claimed derivation (ignore the unparseable value) yields
`9.99` for both bounds, but the derivation in the code aborts the
price computation of the whole record and leaves both fields absent. -/
theorem claim_C2_counterexample :
    derivePrices (.listv c2vars) = (none, none)
    ∧ specPriceDerive c2vars = (some { num := 999, exp := 2 }, some { num := 999, exp := 2 })
    ∧ derivePrices (.listv c2vars) ≠ specPriceDerive c2vars := by
  refine ⟨rfl, rfl, ?_⟩
  decide

/-- Claim C2, amended: price derivation parses each non-null variant
price as a float (falsy values coerced to `0` first); if every such parse
succeeds and at least one non-null price exists, `price_min`/`price_max`
are the minimum and maximum of the parsed values; if no variant carries a
non-null price both are absent; a failed parse (or a malformed variants
shape) leaves both absent for that record; whenever both are present,
`price_min ≤ price_max`. -/
theorem claim_C2 :
    (∀ (vf : VariantsField) (q1 q2 : Dec),
        derivePrices vf = (some q1, some q2) → Dec.LeP q1 q2)
    ∧ (∀ vs : List VariantRec, (∀ v ∈ vs, v = VariantRec.vdict PriceVal.vnull) →
        derivePrices (.listv vs) = (none, none))
    ∧ (∀ vs : List VariantRec, collectPrices vs = none →
        derivePrices (.listv vs) = (none, none))
    ∧ (∀ (vs : List VariantRec) (d : Dec) (ds : List Dec),
        collectPrices vs = some (d :: ds) →
        derivePrices (.listv vs) = (some (pyMin d ds), some (pyMax d ds))
          ∧ pyMin d ds ∈ d :: ds ∧ pyMax d ds ∈ d :: ds
          ∧ ∀ x ∈ d :: ds, Dec.LeP (pyMin d ds) x ∧ Dec.LeP x (pyMax d ds)) := by
  refine ⟨?_, ?_, ?_, ?_⟩
  · intro vf q1 q2 h
    match vf with
    | .nonList => simp [derivePrices] at h
    | .listv vs =>
      simp only [derivePrices] at h
      match hc : collectPrices vs with
      | none => rw [hc] at h; exact absurd h (by simp)
      | some [] => rw [hc] at h; exact absurd h (by simp)
      | some (d :: ds) =>
        rw [hc] at h
        injection h with ha hb
        injection ha with ha
        injection hb with hb
        subst ha; subst hb
        exact (pyMin_spec ds d).2 _ (pyMax_spec ds d).1
  · intro vs h
    have := collectPrices_all_null vs h
    simp [derivePrices, this]
  · intro vs h
    simp [derivePrices, h]
  · intro vs d ds h
    refine ⟨by simp [derivePrices, h], (pyMin_spec ds d).1, (pyMax_spec ds d).1, ?_⟩
    intro x hx
    exact ⟨(pyMin_spec ds d).2 _ hx, (pyMax_spec ds d).2 _ hx⟩

/-- Witness for claim C2 at concrete inputs: an all-null variants list
yields absent prices, and a two-price record satisfies the min/max
ordering. -/
theorem claim_C2_witness :
    derivePrices (.listv [.vdict .vnull, .vdict .vnull]) = (none, none)
    ∧ Dec.LeP { num := 999, exp := 2 } { num := 1999, exp := 2 } :=
  ⟨claim_C2.2.1 _ (by decide),
   claim_C2.1 (.listv [.vdict (.vstr "9.99"), .vdict (.vstr "19.99")]) _ _ rfl⟩

/-- Claim C4: the catalog resolver probes exactly
`/products.json?limit=250` then `/products.json` against the base origin,
accepts the first 200-with-`"products"`-field response, stops on that
first success (never merging), and yields an empty catalog when no probe
succeeds. -/
theorem claim_C4 (fetch : Fetch) (base_url : String) :
    probeProducts fetch base_url =
      (match probeAccept (fetch (pyUrljoin base_url "/products.json?limit=250")) with
       | some ps => ps
       | none =>
         match probeAccept (fetch (pyUrljoin base_url "/products.json")) with
         | some ps => ps
         | none => [])
    ∧ (probeAccept (fetch (pyUrljoin base_url "/products.json?limit=250")) = none →
        probeAccept (fetch (pyUrljoin base_url "/products.json")) = none →
        try_products_json fetch base_url = .ok []) := by
  constructor
  · simp only [probeProducts, catalogProbeUrls, probeLoop]
  · intro h1 h2
    simp only [try_products_json, probeProducts, catalogProbeUrls, probeLoop, h1, h2,
      normalizeAll]

/-- Witness for claim C4: a dead network yields an empty catalog. -/
theorem claim_C4_witness :
    probeAccept ((fun _ => none : Fetch) "https://s.com/products.json?limit=250") = none
    ∧ try_products_json (fun _ => none) "https://s.com" = .ok [] :=
  ⟨rfl, (claim_C4 (fun _ => none) "https://s.com").2 rfl rfl⟩

/-- Whether an `Except` computation succeeded. -/
def exOk {ε α : Type} : Except ε α → Bool
  | .ok _ => true
  | .error _ => false

/-- A raw record whose `images` field is a truthy non-sequence value
(for example an integer): `imgs[0]` raises outside every `try`. -/
def c3badRecord : RawProduct :=
  .pdict { images := .truthyBad }

/-- A network serving a reachable homepage and a catalog probe answering
with the single malformed record. -/
def c3fetch : Fetch := fun u =>
  if u = "https://s.com" then some { status := 200, page := {} }
  else if u = "https://s.com/products.json?limit=250" then
    some { status := 200, json := .dictProducts [c3badRecord] }
  else none

/-- Claim C3, counterexample: a single record whose `images` field is a
truthy non-list aborts the whole catalog (`try_products_json` raises) and
the whole extraction pipeline (the caller gets the internal failure, not a
profile). -/
theorem claim_C3_counterexample :
    normalizeAll "https://s.com" [c3badRecord] = .error ()
    ∧ try_products_json c3fetch "https://s.com" = .error ()
    ∧ extract_brand_context c3fetch "https://s.com" = .error .internal := by
  refine ⟨rfl, rfl, rfl⟩

/-- Claim C3, amended: a record whose *price derivation* fails is
absorbed at record scope — it keeps null prices and is still returned, and
a catalog of such records normalizes in full — but not every malformed
field shape is absorbed: a truthy non-sequence `images` value raises an
uncaught exception that aborts the whole catalog and the extraction
pipeline (see the counterexample). -/
theorem claim_C3 :
    (∀ (base : String) (d : RawProductDict), d.images ≠ ImgsField.truthyBad →
      ∃ np, normalizeRecord base (.pdict d) = .ok np
        ∧ np.price_min = (derivePrices d.variants).1
        ∧ np.price_max = (derivePrices d.variants).2
        ∧ np.title = d.title ∧ np.handle = d.handle)
    ∧ (∀ (base : String) (ds : List RawProductDict),
        (∀ d ∈ ds, d.images ≠ ImgsField.truthyBad) →
        ∃ nps, normalizeAll base (ds.map RawProduct.pdict) = .ok nps
          ∧ nps.length = ds.length) := by
  have himg : ∀ imgs : ImgsField, imgs ≠ ImgsField.truthyBad →
      ∃ img, firstImage imgs = .ok img := by
    intro imgs h
    match imgs with
    | .falsy => exact ⟨none, rfl⟩
    | .ilist [] => exact ⟨none, rfl⟩
    | .ilist (i :: rest) =>
      match i with
      | .istr s => exact ⟨some s, rfl⟩
      | .iobj src => exact ⟨src, rfl⟩
      | .iother => exact ⟨none, rfl⟩
    | .istrv s =>
      match s, h with
      | ⟨[]⟩, _ => exact ⟨none, rfl⟩
      | ⟨c :: cs⟩, _ => exact ⟨some (String.mk [c]), rfl⟩
    | .truthyBad => exact absurd rfl h
  have hrec : ∀ (base : String) (d : RawProductDict), d.images ≠ ImgsField.truthyBad →
      ∃ np, normalizeRecord base (.pdict d) = .ok np
        ∧ np.price_min = (derivePrices d.variants).1
        ∧ np.price_max = (derivePrices d.variants).2
        ∧ np.title = d.title ∧ np.handle = d.handle := by
    intro base d h
    obtain ⟨img, himg2⟩ := himg d.images h
    refine ⟨{ id := d.id, title := d.title, handle := d.handle,
              url := match d.handle with
                | some h0 => if h0 ≠ "" then some (pyUrljoin base ("/products/" ++ h0)) else none
                | none => none,
              variants := d.variants, tags := normalizeTags d.tags, image := img,
              body_html := d.body_html,
              price_min := (derivePrices d.variants).1,
              price_max := (derivePrices d.variants).2 }, ?_, rfl, rfl, rfl, rfl⟩
    simp only [normalizeRecord, himg2]
  refine ⟨hrec, ?_⟩
  intro base ds
  induction ds with
  | nil => intro _; exact ⟨[], rfl, rfl⟩
  | cons d rest ih =>
    intro h
    obtain ⟨np, hnp, _⟩ := hrec base d (h d (List.mem_cons_self _ _))
    obtain ⟨nps, hnps, hlen⟩ := ih fun x hx => h x (List.mem_cons_of_mem _ hx)
    refine ⟨np :: nps, ?_, by simp [hlen]⟩
    simp only [List.map_cons, normalizeAll, hnp, hnps]

/-- Witness for claim C3 at a concrete record whose price derivation
fails (`"x"` is unparseable): the record normalizes with absent prices and
the surrounding catalog survives. -/
theorem claim_C3_witness :
    exOk (normalizeRecord "https://s.com"
      (.pdict { title := some "Tee", variants := .listv [.vdict (.vstr "x")] })) = true
    ∧ exOk (normalizeAll "https://s.com"
        [RawProduct.pdict { variants := .listv [.vdict (.vstr "x")] }]) = true := by
  constructor
  · obtain ⟨np, hnp, -, -, -, -⟩ :=
      claim_C3.1 "https://s.com" { title := some "Tee", variants := .listv [.vdict (.vstr "x")] }
        (by decide)
    simp [hnp, exOk]
  · obtain ⟨nps, hnps, -⟩ :=
      claim_C3.2 "https://s.com" [{ variants := .listv [.vdict (.vstr "x")] }] (by decide)
    simpa [exOk] using congrArg exOk hnps

theorem roleStep_contact (r : RoleUrls) (kv : String × String) :
    (roleStep r kv).contact = if contactCond kv.1 kv.2 then some kv.2 else r.contact := by
  unfold roleStep
  cases hc : contactCond kv.1 kv.2 <;> cases ha : aboutCond kv.1 kv.2 <;>
    cases ht : trackingCond kv.1 kv.2 <;> cases hb : blogCond kv.1 kv.2 <;>
      simp [hc, ha, ht, hb]

theorem roleStep_about (r : RoleUrls) (kv : String × String) :
    (roleStep r kv).about = if aboutCond kv.1 kv.2 then some kv.2 else r.about := by
  unfold roleStep
  cases hc : contactCond kv.1 kv.2 <;> cases ha : aboutCond kv.1 kv.2 <;>
    cases ht : trackingCond kv.1 kv.2 <;> cases hb : blogCond kv.1 kv.2 <;>
      simp [hc, ha, ht, hb]

theorem roleStep_tracking (r : RoleUrls) (kv : String × String) :
    (roleStep r kv).tracking = if trackingCond kv.1 kv.2 then some kv.2 else r.tracking := by
  unfold roleStep
  cases hc : contactCond kv.1 kv.2 <;> cases ha : aboutCond kv.1 kv.2 <;>
    cases ht : trackingCond kv.1 kv.2 <;> cases hb : blogCond kv.1 kv.2 <;>
      simp [hc, ha, ht, hb]

theorem roleStep_blogs (r : RoleUrls) (kv : String × String) :
    (roleStep r kv).blogs = if blogCond kv.1 kv.2 then some kv.2 else r.blogs := by
  unfold roleStep
  cases hc : contactCond kv.1 kv.2 <;> cases ha : aboutCond kv.1 kv.2 <;>
    cases ht : trackingCond kv.1 kv.2 <;> cases hb : blogCond kv.1 kv.2 <;>
      simp [hc, ha, ht, hb]

theorem polStep_fst (pr : Option String × Option String) (kv : String × String) :
    (polStep pr kv).1 = if privacyCond kv.1 kv.2 then some kv.2 else pr.1 := by
  unfold polStep
  cases hp : privacyCond kv.1 kv.2 <;> cases hr : returnsCond kv.1 kv.2 <;> simp [hp, hr]

theorem polStep_snd (pr : Option String × Option String) (kv : String × String) :
    (polStep pr kv).2 = if returnsCond kv.1 kv.2 then some kv.2 else pr.2 := by
  unfold polStep
  cases hp : privacyCond kv.1 kv.2 <;> cases hr : returnsCond kv.1 kv.2 <;> simp [hp, hr]

/-- A fold whose step overwrites an observed slot exactly on `cond` leaves
in that slot the last matching entry (or the initial value). -/
theorem foldl_scan_proj {σ : Type} (step : σ → (String × String) → σ)
    (proj : σ → Option String) (cond : String → String → Bool)
    (hstep : ∀ r kv, proj (step r kv) = if cond kv.1 kv.2 then some kv.2 else proj r) :
    ∀ (links : List (String × String)) (init : σ),
      proj (links.foldl step init) =
        match lastMatch cond links with
        | some v => some v
        | none => proj init := by
  intro links
  induction links with
  | nil => intro init; simp [lastMatch]
  | cons kv rest ih =>
    intro init
    have h1 : proj ((kv :: rest).foldl step init) = proj (rest.foldl step (step init kv)) := rfl
    rw [h1, ih (step init kv), hstep]
    show _ = (match lastMatch cond (kv :: rest) with
      | some v => some v
      | none => proj init)
    rw [show lastMatch cond (kv :: rest) = match lastMatch cond rest with
        | some v => some v
        | none => if cond kv.1 kv.2 then some kv.2 else none from rfl]
    cases lastMatch cond rest with
    | some v => rfl
    | none => cases cond kv.1 kv.2 <;> simp

/-- Collapsing an identity match on an `Option`. -/
theorem matchOption_id (o : Option String) :
    (match o with | some v => some v | none => none) = o := by
  cases o <;> rfl

theorem roleScan_contact (links : List (String × String)) :
    (roleScan links).contact = lastMatch contactCond links := by
  rw [roleScan, foldl_scan_proj roleStep RoleUrls.contact contactCond roleStep_contact]
  exact matchOption_id _

theorem roleScan_about (links : List (String × String)) :
    (roleScan links).about = lastMatch aboutCond links := by
  rw [roleScan, foldl_scan_proj roleStep RoleUrls.about aboutCond roleStep_about]
  exact matchOption_id _

theorem roleScan_tracking (links : List (String × String)) :
    (roleScan links).tracking = lastMatch trackingCond links := by
  rw [roleScan, foldl_scan_proj roleStep RoleUrls.tracking trackingCond roleStep_tracking]
  exact matchOption_id _

theorem roleScan_blogs (links : List (String × String)) :
    (roleScan links).blogs = lastMatch blogCond links := by
  rw [roleScan, foldl_scan_proj roleStep RoleUrls.blogs blogCond roleStep_blogs]
  exact matchOption_id _

theorem find_policy_pages_eq (links : List (String × String)) :
    find_policy_pages links = (lastMatch privacyCond links, lastMatch returnsCond links) := by
  have h1 := foldl_scan_proj polStep Prod.fst privacyCond polStep_fst links (none, none)
  have h2 := foldl_scan_proj polStep Prod.snd returnsCond polStep_snd links (none, none)
  rw [matchOption_id] at h1 h2
  exact Prod.ext h1 h2

theorem faqScan_eq (links : List (String × String)) :
    faqScan links = firstMatch faqCond links := by
  induction links with
  | nil => rfl
  | cons kv rest ih => simp [faqScan, firstMatch, ih]

theorem lastMatch_append_single (cond : String → String → Bool)
    (links : List (String × String)) (k u : String) :
    lastMatch cond (links ++ [(k, u)]) =
      if cond k u then some u else lastMatch cond links := by
  induction links with
  | nil => cases h : cond k u <;> simp [lastMatch, h]
  | cons kv rest ih =>
    show (match lastMatch cond (rest ++ [(k, u)]) with
      | some v => some v
      | none => if cond kv.1 kv.2 then some kv.2 else none) = _
    rw [ih]
    cases h : cond k u <;> simp [lastMatch]

/-- The reading the claim takes of the tracking rule: keywords matched against
the lower-cased label and the lower-cased URL alike. -/
def specTrackingMatch (k u : String) : Bool :=
  pyIn "track" (pyLower k) || pyIn "order" (pyLower k) || pyIn "tracking" (pyLower k)
    || pyIn "track" (pyLower u) || pyIn "order" (pyLower u) || pyIn "tracking" (pyLower u)

/-- Claim C5, counterexample: a link whose lower-cased URL contains
`track` and `order` but whose label matches nothing is, per the claim,
a tracking link — yet the scan assigns no tracking role, because the code
tests the tracking keywords against the label only. -/
theorem claim_C5_counterexample :
    specTrackingMatch "home" "https://s.com/track-order" = true
    ∧ (roleScan [("home", "https://s.com/track-order")]).tracking = none := by
  refine ⟨by decide, rfl⟩

/-- Claim C5, amended: each role is keyword-matched as the code actually
does — contact/about against lower-cased label and URL; tracking
(`track`/`order`/`tracking`) against the label only; blog against the
label, or `/blogs` in the raw URL; faq against the label, or `/faq` in the
lower-cased URL — and the tie-breaks are as claimed: the faq scan stops at
the first matching link, while the contact/about/tracking/blog scan
unconditionally overwrites, so the last matching link wins. -/
theorem claim_C5 (links : List (String × String)) :
    roleScan links =
      { contact := lastMatch contactCond links
        about := lastMatch aboutCond links
        tracking := lastMatch trackingCond links
        blogs := lastMatch blogCond links }
    ∧ faqScan links = firstMatch faqCond links := by
  refine ⟨?_, faqScan_eq links⟩
  have hc := roleScan_contact links
  have ha := roleScan_about links
  have ht := roleScan_tracking links
  have hb := roleScan_blogs links
  cases hR : roleScan links
  rw [hR] at hc ha ht hb
  simp only at hc ha ht hb
  rw [hc, ha, ht, hb]

/-- Claim C10: for privacy and returns, several matching index entries
resolve to the last one in iteration order (the scan unconditionally
overwrites), and a single link matching both keyword sets is assigned to
both roles at once. -/
theorem claim_C10 :
    (∀ links : List (String × String),
      find_policy_pages links = (lastMatch privacyCond links, lastMatch returnsCond links))
    ∧ (∀ (links : List (String × String)) (k u : String),
        privacyCond k u = true → returnsCond k u = true →
        find_policy_pages (links ++ [(k, u)]) = (some u, some u)) := by
  refine ⟨find_policy_pages_eq, ?_⟩
  intro links k u hp hr
  rw [find_policy_pages_eq, lastMatch_append_single, lastMatch_append_single, hp, hr]
  simp

/-- Witness for claim C10: a link labeled for both policies lands in both
slots. -/
theorem claim_C10_witness :
    find_policy_pages [("Privacy and Returns", "https://s.com/policy")] =
      (some "https://s.com/policy", some "https://s.com/policy") :=
  claim_C10.2 [] "Privacy and Returns" "https://s.com/policy" (by decide) (by decide)

theorem qaOfQElem_ne (q : QElem) (qa : String × String) (h : qaOfQElem q = some qa) :
    qa.1 ≠ "" := by
  simp only [qaOfQElem] at h
  split at h
  case isTrue hc =>
    injection h with h2
    subst h2
    exact hc
  case isFalse hc => exact Option.noConfusion h

theorem qaOfDetails_ne (d : DetailsElem) (qa : String × String) (h : qaOfDetails d = some qa) :
    qa.1 ≠ "" := by
  simp only [qaOfDetails] at h
  split at h
  case isTrue hc =>
    injection h with h2
    subst h2
    exact hc
  case isFalse hc => exact Option.noConfusion h

/-- Claim C7: a document with no `details` element and no "faq"-matching
container yields no FAQ pairs; every returned pair has a nonempty
question; and an empty answer is retained as the empty string (concrete
instance: a question whose following sibling is empty). -/
theorem claim_C7 :
    (∀ doc : FaqDoc, doc.faqContainers = [] → doc.detailsElems = [] →
      extract_faqs_from_page doc = [])
    ∧ (∀ (doc : FaqDoc) (qa : String × String),
        qa ∈ extract_faqs_from_page doc → qa.1 ≠ "")
    ∧ extract_faqs_from_page
        { faqContainers :=
            [{ questions := [{ text := "Q", nextSibling := some "", parentText := none }] }] } =
      [("Q", "")] := by
  refine ⟨?_, ?_, rfl⟩
  · intro doc h1 h2
    simp [extract_faqs_from_page, h1, h2]
  · intro doc qa hmem
    simp only [extract_faqs_from_page] at hmem
    split at hmem
    · obtain ⟨d, -, hd⟩ := List.mem_filterMap.mp hmem
      exact qaOfDetails_ne d qa hd
    · obtain ⟨l, hl, hql⟩ := List.mem_flatten.mp hmem
      obtain ⟨c, -, hc⟩ := List.mem_map.mp hl
      subst hc
      obtain ⟨q, -, hq⟩ := List.mem_filterMap.mp hql
      exact qaOfQElem_ne q qa hq

/-- Witness for claim C7: the empty document yields no pairs, and the
concrete one-question container keeps its empty answer. -/
theorem claim_C7_witness :
    extract_faqs_from_page { faqContainers := [], detailsElems := [] } = []
    ∧ ("Q", "") ∈ extract_faqs_from_page
        { faqContainers :=
            [{ questions := [{ text := "Q", nextSibling := some "", parentText := none }] }] } ∧
      ¬ ("Q", "").1 = "" :=
  ⟨claim_C7.1 _ rfl rfl,
   by rw [claim_C7.2.2]; exact List.mem_singleton.mpr rfl,
   claim_C7.2.1 _ ("Q", "") (by rw [claim_C7.2.2]; exact List.mem_singleton.mpr rfl)⟩

/-- Claim C8: the phone extractor returns only deduplicated candidates
with at least 6 digits, and on text containing a 4-digit year and a
10-digit phone number it returns exactly the 10-digit candidate. -/
theorem claim_C8 :
    (∀ text : String, ((find_emails_phones text).2).Nodup
      ∧ ∀ p ∈ (find_emails_phones text).2, 6 ≤ digitCount p)
    ∧ (find_emails_phones "Founded in 2023 call 9876543210").2 = ["9876543210"] := by
  refine ⟨?_, rfl⟩
  intro text
  constructor
  · exact List.nodup_dedup _
  · intro p hp
    have hmem := List.mem_dedup.mp hp
    have hfil := (List.mem_filter.mp hmem).2
    exact of_decide_eq_true hfil

/-- Witness for claim C8 at the concrete text: the result is
duplicate-free and its sole candidate carries at least 6 digits. -/
theorem claim_C8_witness :
    ((find_emails_phones "Founded in 2023 call 9876543210").2).Nodup
    ∧ 6 ≤ digitCount "9876543210" :=
  ⟨(claim_C8.1 "Founded in 2023 call 9876543210").1,
   (claim_C8.1 "Founded in 2023 call 9876543210").2 "9876543210"
     (by rw [claim_C8.2]; exact List.mem_singleton.mpr rfl)⟩

theorem lookup_append_single (l : List (String × String)) (k k1 v : String) :
    (l ++ [(k1, v)]).lookup k =
      match l.lookup k with
      | some w => some w
      | none => if k == k1 then some v else none := by
  induction l with
  | nil =>
    show (match k == k1 with | true => some v | false => List.lookup k []) = _
    cases h : k == k1 <;> simp [h, List.lookup]
  | cons kv rest ih =>
    show (match k == kv.1 with
      | true => some kv.2
      | false => (rest ++ [(k1, v)]).lookup k) = _
    cases h : k == kv.1 with
    | true =>
      show some kv.2 = (match (match k == kv.1 with
        | true => some kv.2
        | false => rest.lookup k) with
        | some w => some w
        | none => if k == k1 then some v else none)
      rw [h]
    | false =>
      show (rest ++ [(k1, v)]).lookup k = (match (match k == kv.1 with
        | true => some kv.2
        | false => rest.lookup k) with
        | some w => some w
        | none => if k == k1 then some v else none)
      rw [h]
      exact ih

theorem lookup_none_not_mem (l : List (String × String)) (k : String)
    (h : l.lookup k = none) : ∀ kv ∈ l, kv.1 ≠ k := by
  induction l with
  | nil => intro kv hkv; exact absurd hkv (List.not_mem_nil kv)
  | cons kv0 rest ih =>
    intro kv hkv
    have h2 : (match k == kv0.1 with
      | true => some kv0.2
      | false => rest.lookup k) = none := h
    cases hb : k == kv0.1 with
    | true => rw [hb] at h2; exact absurd h2 (by simp)
    | false =>
      rw [hb] at h2
      rcases List.mem_cons.mp hkv with rfl | hkv2
      · exact fun he => beq_eq_false_iff_ne.mp hb he.symm
      · exact ih h2 kv hkv2

theorem socialHostStep_lookup_same (base href : String) (found : List (String × String))
    (host : String) :
    (socialHostStep base href found host).lookup (hostKey host) =
      match found.lookup (hostKey host) with
      | some w => some w
      | none => if pyIn host href then some (resolveHref base href) else none := by
  unfold socialHostStep
  cases hin : pyIn host href with
  | false =>
    simp only [Bool.false_eq_true, if_false]
    cases found.lookup (hostKey host) <;> rfl
  | true =>
    simp only [if_true]
    cases hl : found.lookup (hostKey host) with
    | some w => simp [hl]
    | none =>
      simp only [hl, Option.isSome_none, Bool.false_eq_true, if_false]
      rw [lookup_append_single, hl]
      simp

theorem socialHostStep_lookup_other (base href : String) (found : List (String × String))
    (host k : String) (h : hostKey host ≠ k) :
    (socialHostStep base href found host).lookup k = found.lookup k := by
  unfold socialHostStep
  cases hin : pyIn host href with
  | false => rfl
  | true =>
    simp only [if_true]
    cases hl : (found.lookup (hostKey host)).isSome with
    | true => rfl
    | false =>
      simp only [Bool.false_eq_true, if_false]
      rw [lookup_append_single]
      have hbe : (k == hostKey host) = false := beq_eq_false_iff_ne.mpr (Ne.symm h)
      rw [hbe]
      cases found.lookup k <;> simp

theorem socialHosts_fold_other (base href : String) (hosts : List String)
    (found : List (String × String)) (k : String) (h : ∀ h0 ∈ hosts, hostKey h0 ≠ k) :
    (hosts.foldl (socialHostStep base href) found).lookup k = found.lookup k := by
  induction hosts generalizing found with
  | nil => rfl
  | cons h0 rest ih =>
    have hstep := socialHostStep_lookup_other base href found h0 k
      (h h0 (List.mem_cons_self _ _))
    calc ((h0 :: rest).foldl (socialHostStep base href) found).lookup k
        = (rest.foldl (socialHostStep base href) (socialHostStep base href found h0)).lookup k :=
          rfl
      _ = (socialHostStep base href found h0).lookup k :=
          ih _ fun x hx => h x (List.mem_cons_of_mem _ hx)
      _ = found.lookup k := hstep

theorem socialHosts_fold_lookup (base href : String) (hosts : List String)
    (found : List (String × String)) (host : String) (hmem : host ∈ hosts)
    (hnodup : (hosts.map hostKey).Nodup) :
    (hosts.foldl (socialHostStep base href) found).lookup (hostKey host) =
      match found.lookup (hostKey host) with
      | some w => some w
      | none => if pyIn host href then some (resolveHref base href) else none := by
  induction hosts generalizing found with
  | nil => exact absurd hmem (List.not_mem_nil host)
  | cons h0 rest ih =>
    have hfold : ((h0 :: rest).foldl (socialHostStep base href) found)
        = rest.foldl (socialHostStep base href) (socialHostStep base href found h0) := rfl
    rcases List.mem_cons.mp hmem with rfl | hmem2
    · rw [hfold]
      have hothers : ∀ x ∈ rest, hostKey x ≠ hostKey host := by
        intro x hx
        have := (List.nodup_cons.mp hnodup).1
        intro he
        exact this (he ▸ List.mem_map_of_mem hostKey hx)
      rw [socialHosts_fold_other base href rest _ (hostKey host) hothers]
      exact socialHostStep_lookup_same base href found host
    · rw [hfold]
      have hne : hostKey h0 ≠ hostKey host := by
        have := (List.nodup_cons.mp hnodup).1
        intro he
        exact this (he ▸ List.mem_map_of_mem hostKey hmem2)
      rw [ih _ hmem2 (List.nodup_cons.mp hnodup).2]
      rw [socialHostStep_lookup_other base href found h0 (hostKey host) hne]

theorem find_social_links_lookup_aux (base host : String) (hmem : host ∈ SOCIAL_HOSTS) :
    ∀ (anchors : List Anchor) (found : List (String × String)),
      (anchors.foldl (socialAnchorStep base) found).lookup (hostKey host) =
        match found.lookup (hostKey host) with
        | some w => some w
        | none =>
          (anchors.find? fun a => pyIn host (pyStrip a.href)).map
            fun a => resolveHref base (pyStrip a.href) := by
  intro anchors
  induction anchors with
  | nil =>
    intro found
    show List.lookup (hostKey host) found = _
    cases hl : List.lookup (hostKey host) found with
    | some w => rfl
    | none => rfl
  | cons a rest ih =>
    intro found
    have hfold : ((a :: rest).foldl (socialAnchorStep base) found)
        = rest.foldl (socialAnchorStep base) (socialAnchorStep base found a) := rfl
    rw [hfold, ih]
    have hstep := socialHosts_fold_lookup base (pyStrip a.href) SOCIAL_HOSTS found host hmem
      (by decide)
    unfold socialAnchorStep
    rw [hstep]
    cases hl : found.lookup (hostKey host) with
    | some w => rfl
    | none =>
      cases hin : pyIn host (pyStrip a.href) with
      | true => simp [List.find?, hin]
      | false => simp [List.find?, hin]

theorem socialHostStep_keys_nodup (base href : String) (found : List (String × String))
    (host : String) (h : (found.map Prod.fst).Nodup) :
    ((socialHostStep base href found host).map Prod.fst).Nodup := by
  unfold socialHostStep
  cases hin : pyIn host href with
  | false => exact h
  | true =>
    simp only [if_true]
    cases hl : (found.lookup (hostKey host)).isSome with
    | true => exact h
    | false =>
      simp only [Bool.false_eq_true, if_false, List.map_append, List.map_cons, List.map_nil]
      rw [List.nodup_append]
      refine ⟨h, List.nodup_singleton _, ?_⟩
      intro x hx hx2
      simp only [List.mem_singleton] at hx2
      subst hx2
      obtain ⟨kv, hkv, hfst⟩ := List.mem_map.mp hx
      have hnone : found.lookup (hostKey host) = none := by
        cases hval : found.lookup (hostKey host) with
        | none => rfl
        | some w => rw [hval] at hl; simp at hl
      exact lookup_none_not_mem found (hostKey host) hnone kv hkv hfst

theorem find_social_links_keys_nodup (anchors : List Anchor) (base : String) :
    ((find_social_links anchors base).map Prod.fst).Nodup := by
  suffices h : ∀ (anchors : List Anchor) (found : List (String × String)),
      (found.map Prod.fst).Nodup →
      (((anchors.foldl (socialAnchorStep base) found)).map Prod.fst).Nodup from
    h anchors [] List.nodup_nil
  intro as
  induction as with
  | nil => intro found hf; exact hf
  | cons a rest ih =>
    intro found hf
    refine ih _ ?_
    unfold socialAnchorStep
    suffices h2 : ∀ (hosts : List String) (fd : List (String × String)),
        (fd.map Prod.fst).Nodup →
        ((hosts.foldl (socialHostStep base (pyStrip a.href)) fd).map Prod.fst).Nodup from
      h2 SOCIAL_HOSTS found hf
    intro hosts
    induction hosts with
    | nil => intro fd hfd; exact hfd
    | cons h0 hrest ih2 =>
      intro fd hfd
      exact ih2 _ (socialHostStep_keys_nodup base (pyStrip a.href) fd h0 hfd)

/-- The two-instagram-anchors page of the concrete claim scenario. -/
def c9anchors : List Anchor :=
  [{ href := "https://instagram.com/a", text := "" },
   { href := "https://instagram.com/b", text := "" }]

/-- Claim C9: at most one entry per social platform (the key list is
duplicate-free), keyed by the first label of the hostname, recording the first
matching anchor in document order; on a page with two distinct
instagram.com anchors, exactly one `instagram` entry equal to the first. -/
theorem claim_C9 :
    (∀ (anchors : List Anchor) (base host : String), host ∈ SOCIAL_HOSTS →
      (find_social_links anchors base).lookup (hostKey host) =
        (anchors.find? fun a => pyIn host (pyStrip a.href)).map
          fun a => resolveHref base (pyStrip a.href))
    ∧ (∀ (anchors : List Anchor) (base : String),
        ((find_social_links anchors base).map Prod.fst).Nodup)
    ∧ find_social_links c9anchors "https://s.com" =
        [("instagram", "https://instagram.com/a")] := by
  refine ⟨?_, find_social_links_keys_nodup, rfl⟩
  intro anchors base host hmem
  have h := find_social_links_lookup_aux base host hmem anchors []
  rw [find_social_links, h]
  rfl

/-- Witness for claim C9: the instagram platform resolves to the first
anchor. -/
theorem claim_C9_witness :
    (find_social_links c9anchors "https://s.com").lookup (hostKey "instagram.com") =
      some "https://instagram.com/a" := by
  rw [claim_C9.1 c9anchors "https://s.com" "instagram.com" (by decide)]
  rfl

theorem extract_text_none (fetch : Fetch) (u : String) (h : fetch u = none) :
    extract_text_from_url fetch u = "" := by
  simp [extract_text_from_url, safe_get, h]

theorem mem_dictInsert (l : List (String × String)) (k v : String) (kv : String × String)
    (h : kv ∈ dictInsert l k v) : kv ∈ l ∨ kv = (k, v) := by
  unfold dictInsert at h
  split at h
  · obtain ⟨kv0, hkv0, heq⟩ := List.mem_map.mp h
    by_cases he : kv0.1 = k
    · right; rw [if_pos he] at heq; exact heq.symm
    · left; rw [if_neg he] at heq; exact heq ▸ hkv0
  · rcases List.mem_append.mp h with h2 | h2
    · exact Or.inl h2
    · exact Or.inr (List.mem_singleton.mp h2)

theorem nav_values (base : String) : ∀ (anchors : List Anchor) (kv : String × String),
    kv ∈ extract_nav_links anchors base →
    ∃ a ∈ anchors, kv.2 = resolveHref base (pyStrip a.href) := by
  suffices h : ∀ (anchors : List Anchor) (init : List (String × String)) (kv : String × String),
      kv ∈ anchors.foldl (navStep base) init →
      kv ∈ init ∨ ∃ a ∈ anchors, kv.2 = resolveHref base (pyStrip a.href) by
    intro anchors kv hkv
    rcases h anchors [] kv hkv with h2 | h2
    · exact absurd h2 (List.not_mem_nil kv)
    · exact h2
  intro anchors
  induction anchors with
  | nil => intro init kv hkv; exact Or.inl hkv
  | cons a rest ih =>
    intro init kv hkv
    have hkv2 : kv ∈ rest.foldl (navStep base) (navStep base init a) := hkv
    rcases ih (navStep base init a) kv hkv2 with h2 | h2
    · simp only [navStep] at h2
      split at h2
      · exact Or.inl h2
      split at h2
      · exact Or.inl h2
      · rcases mem_dictInsert _ _ _ kv h2 with h3 | h3
        · exact Or.inl h3
        · exact Or.inr ⟨a, List.mem_cons_self _ _, by rw [h3]⟩
    · obtain ⟨a2, ha2, he⟩ := h2
      exact Or.inr ⟨a2, List.mem_cons_of_mem _ ha2, he⟩

theorem lastMatch_some_mem (cond : String → String → Bool) :
    ∀ (links : List (String × String)) (u : String),
      lastMatch cond links = some u → ∃ kv ∈ links, kv.2 = u := by
  intro links
  induction links with
  | nil => intro u h; exact absurd h (by simp [lastMatch])
  | cons kv0 rest ih =>
    intro u h
    have h2 : (match lastMatch cond rest with
      | some v => some v
      | none => if cond kv0.1 kv0.2 then some kv0.2 else none) = some u := h
    cases hl : lastMatch cond rest with
    | some v =>
      rw [hl] at h2
      obtain ⟨kv, hkv, he⟩ := ih v hl
      injection h2 with h3
      exact ⟨kv, List.mem_cons_of_mem _ hkv, h3 ▸ he⟩
    | none =>
      rw [hl] at h2
      cases hc : cond kv0.1 kv0.2 with
      | true =>
        rw [hc] at h2
        simp at h2
        exact ⟨kv0, List.mem_cons_self _ _, h2⟩
      | false =>
        rw [hc] at h2
        simp at h2

theorem mergeFromText_trivial (cur : List String × List String) (o : Option String)
    (h : o = none ∨ o = some "") : mergeFromText cur o = cur := by
  rcases h with rfl | rfl
  · rfl
  · simp [mergeFromText]

theorem addTextEntry_trivial (m : List (String × String)) (k : String) (o : Option String)
    (h : o = none ∨ o = some "") : addTextEntry m k o = m := by
  rcases h with rfl | rfl
  · rfl
  · simp [addTextEntry]

theorem buildRawPages_trivial (a c pv rt : Option String)
    (ha : a = none ∨ a = some "") (hc : c = none ∨ c = some "")
    (hpv : pv = none ∨ pv = some "") (hrt : rt = none ∨ rt = some "") :
    buildRawPages a c pv rt = [] := by
  unfold buildRawPages
  rw [addTextEntry_trivial _ _ _ hrt, addTextEntry_trivial _ _ _ hpv,
    addTextEntry_trivial _ _ _ hc, addTextEntry_trivial _ _ _ ha]

/-- Claim C1: a homepage fetch failure (connection failure or non-2xx
status) aborts the whole extraction with the distinct not-reachable
failure and no profile; whereas when the homepage succeeds and every
secondary fetch (catalog probes, policy probes, every linked page) fails,
extraction still completes: the catalog and raw pages are absent, the
policy texts are absent or empty, and the homepage-derived emails and
phones are returned — in particular, homepage emails survive a failed
contact-page fetch. -/
theorem claim_C1 :
    (∀ (fetch : Fetch) (url : String), safe_get fetch url = none →
      extract_brand_context fetch url = .error .notReachable)
    ∧ (∀ (fetch : Fetch) (url : String) (resp : HttpResp),
        safe_get fetch url = some resp →
        (∀ u, u ≠ url → fetch u = none) →
        pyUrljoin (normalize_base url) "/products.json?limit=250" ≠ url →
        pyUrljoin (normalize_base url) "/products.json" ≠ url →
        pyUrljoin (normalize_base url) "/policies/privacy-policy" ≠ url →
        pyUrljoin (normalize_base url) "/policies/refund-policy" ≠ url →
        (∀ a ∈ resp.page.anchors, resolveHref (normalize_base url) (pyStrip a.href) ≠ url) →
        ∃ p, extract_brand_context fetch url = .ok p
          ∧ p.products = []
          ∧ (p.privacy_policy = none ∨ p.privacy_policy = some "")
          ∧ (p.return_refund_policy = none ∨ p.return_refund_policy = some "")
          ∧ p.raw_pages = []
          ∧ p.contacts_emails = (find_emails_phones resp.page.rawText).1
          ∧ p.contacts_phones = (find_emails_phones resp.page.rawText).2) := by
  constructor
  · intro fetch url h
    simp only [extract_brand_context, h]
  · intro fetch url resp h1 h2 h3 h4 h5 h6 h7
    have hu1 : fetch (pyUrljoin (normalize_base url) "/products.json?limit=250") = none := h2 _ h3
    have hu2 : fetch (pyUrljoin (normalize_base url) "/products.json") = none := h2 _ h4
    have hcat : try_products_json fetch (normalize_base url) = .ok [] := by
      simp [try_products_json, probeProducts, catalogProbeUrls, probeLoop, probeAccept, hu1, hu2,
        normalizeAll]
    have hmain : extract_brand_context fetch url =
        .ok (assembleProfile fetch url (normalize_base url) resp.page []) := by
      simp only [extract_brand_context, h1, hcat, List.all_nil, if_true]
    have hnav : ∀ kv ∈ extract_nav_links resp.page.anchors (normalize_base url),
        fetch kv.2 = none := by
      intro kv hkv
      obtain ⟨a, ha, he⟩ := nav_values (normalize_base url) resp.page.anchors kv hkv
      exact h2 _ (by rw [he]; exact h7 a ha)
    have htext : ∀ (cond : String → String → Bool) (u : String),
        lastMatch cond (extract_nav_links resp.page.anchors (normalize_base url)) = some u →
        extract_text_from_url fetch u = "" := by
      intro cond u hu
      obtain ⟨kv, hkv, he⟩ := lastMatch_some_mem cond _ u hu
      exact extract_text_none fetch u (he ▸ hnav kv hkv)
    have hmap : ∀ (cond : String → String → Bool) (o : Option String),
        (o = lastMatch cond (extract_nav_links resp.page.anchors (normalize_base url))) →
        (o.map (extract_text_from_url fetch) = none
          ∨ o.map (extract_text_from_url fetch) = some "") := by
      intro cond o ho
      cases hl : o with
      | none => exact Or.inl rfl
      | some u =>
        refine Or.inr ?_
        have := htext cond u (by rw [← ho, hl])
        simp [this]
    have habout : ((roleScan (extract_nav_links resp.page.anchors (normalize_base url))).about).map
          (extract_text_from_url fetch) = none
        ∨ ((roleScan (extract_nav_links resp.page.anchors (normalize_base url))).about).map
          (extract_text_from_url fetch) = some "" :=
      hmap aboutCond _ (roleScan_about _)
    have hcontact :
        ((roleScan (extract_nav_links resp.page.anchors (normalize_base url))).contact).map
          (extract_text_from_url fetch) = none
        ∨ ((roleScan (extract_nav_links resp.page.anchors (normalize_base url))).contact).map
          (extract_text_from_url fetch) = some "" :=
      hmap contactCond _ (roleScan_contact _)
    have hprivU : privacyUrlOf fetch (normalize_base url)
          (extract_nav_links resp.page.anchors (normalize_base url)) = none
        ∨ ∃ u, privacyUrlOf fetch (normalize_base url)
            (extract_nav_links resp.page.anchors (normalize_base url)) = some u
          ∧ extract_text_from_url fetch u = "" := by
      unfold privacyUrlOf
      rw [find_policy_pages_eq]
      cases hl : lastMatch privacyCond (extract_nav_links resp.page.anchors (normalize_base url))
        with
      | some u => exact Or.inr ⟨u, rfl, htext privacyCond u hl⟩
      | none => simp [probe200, h2 _ h5]
    have hretU : returnsUrlOf fetch (normalize_base url)
          (extract_nav_links resp.page.anchors (normalize_base url)) = none
        ∨ ∃ u, returnsUrlOf fetch (normalize_base url)
            (extract_nav_links resp.page.anchors (normalize_base url)) = some u
          ∧ extract_text_from_url fetch u = "" := by
      unfold returnsUrlOf
      rw [find_policy_pages_eq]
      cases hl : lastMatch returnsCond (extract_nav_links resp.page.anchors (normalize_base url))
        with
      | some u => exact Or.inr ⟨u, rfl, htext returnsCond u hl⟩
      | none => simp [probe200, h2 _ h6]
    have hprivT : (privacyUrlOf fetch (normalize_base url)
          (extract_nav_links resp.page.anchors (normalize_base url))).map
          (extract_text_from_url fetch) = none
        ∨ (privacyUrlOf fetch (normalize_base url)
            (extract_nav_links resp.page.anchors (normalize_base url))).map
          (extract_text_from_url fetch) = some "" := by
      rcases hprivU with h | ⟨u, hu, he⟩
      · exact Or.inl (by rw [h]; rfl)
      · exact Or.inr (by rw [hu]; simp [he])
    have hretT : (returnsUrlOf fetch (normalize_base url)
          (extract_nav_links resp.page.anchors (normalize_base url))).map
          (extract_text_from_url fetch) = none
        ∨ (returnsUrlOf fetch (normalize_base url)
            (extract_nav_links resp.page.anchors (normalize_base url))).map
          (extract_text_from_url fetch) = some "" := by
      rcases hretU with h | ⟨u, hu, he⟩
      · exact Or.inl (by rw [h]; rfl)
      · exact Or.inr (by rw [hu]; simp [he])
    have hcont : contactsOf fetch resp.page.rawText
          (roleScan (extract_nav_links resp.page.anchors (normalize_base url))).about
          (roleScan (extract_nav_links resp.page.anchors (normalize_base url))).contact
        = find_emails_phones resp.page.rawText := by
      unfold contactsOf
      rw [mergeFromText_trivial _ _ habout, mergeFromText_trivial _ _ hcontact]
    refine ⟨assembleProfile fetch url (normalize_base url) resp.page [], hmain, rfl,
      hprivT, hretT, ?_, ?_, ?_⟩
    · show buildRawPages _ _ _ _ = []
      exact buildRawPages_trivial _ _ _ _ habout hcontact hprivT hretT
    · show (contactsOf fetch resp.page.rawText _ _).1 = _
      rw [hcont]
    · show (contactsOf fetch resp.page.rawText _ _).2 = _
      rw [hcont]

/-- The emails of a successful extraction, if any. -/
def exGetEmails : Except ExtractErr BrandContextM → Option (List String)
  | .ok p => some p.contacts_emails
  | .error _ => none

/-- The homepage of the claim C1 witness scenario: a contact link and
contact signals in the raw body. -/
def pageW : PageData :=
  { title := some "Shop"
    anchors := [{ href := "https://shop.com/contact", text := "Contact Us" }]
    rawText := "reach us at contact@shop.com or 9876543210 since 2023" }

/-- A network where only the homepage answers; every secondary fetch
(including the resolved contact page) fails. -/
def fetchW : Fetch := fun u =>
  if u = "https://shop.com" then some { status := 200, page := pageW } else none

/-- Witness for claim C1: a dead network yields the not-reachable
failure; a homepage-only network still returns the homepage emails even
though the contact-page fetch fails. -/
theorem claim_C1_witness :
    extract_brand_context (fun _ => none) "https://shop.com" = .error .notReachable
    ∧ exGetEmails (extract_brand_context fetchW "https://shop.com") =
        some ["contact@shop.com"] := by
  constructor
  · exact claim_C1.1 (fun _ => none) "https://shop.com" rfl
  · obtain ⟨p, hp, -, -, -, -, hem, -⟩ :=
      claim_C1.2 fetchW "https://shop.com" { status := 200, page := pageW } rfl
        (fun u h => if_neg h) (by decide) (by decide) (by decide) (by decide) (by decide)
    rw [hp]
    show some p.contacts_emails = some ["contact@shop.com"]
    rw [hem]
    rfl

theorem pyTruncate_length (s : String) (n : Nat) : (pyTruncate s n).length ≤ n := by
  show (s.data.take n).length ≤ n
  rw [List.length_take]
  exact min_le_left _ _

theorem mem_addTextEntry (m : List (String × String)) (k : String) (o : Option String)
    (kv : String × String) (h : kv ∈ addTextEntry m k o) :
    kv ∈ m ∨ ∃ t, kv = (k, pyTruncate t 5000) := by
  cases o with
  | none => exact Or.inl h
  | some t =>
    simp only [addTextEntry] at h
    split at h
    · rcases List.mem_append.mp h with h2 | h2
      · exact Or.inl h2
      · exact Or.inr ⟨t, List.mem_singleton.mp h2⟩
    · exact Or.inl h

theorem lookup_addTextEntry_ne (m : List (String × String)) (k kk : String) (o : Option String)
    (h : (k == kk) = false) : (addTextEntry m kk o).lookup k = m.lookup k := by
  cases o with
  | none => rfl
  | some t =>
    simp only [addTextEntry]
    split
    · rw [lookup_append_single, h]
      cases m.lookup k <;> simp
    · rfl

theorem lookup_addTextEntry_same (m : List (String × String)) (k : String) (o : Option String)
    (hm : m.lookup k = none) :
    (addTextEntry m k o).lookup k =
      match o with
      | some t => if t ≠ "" then some (pyTruncate t 5000) else none
      | none => none := by
  cases o with
  | none => exact hm
  | some t =>
    simp only [addTextEntry]
    split
    case isTrue hne =>
      rw [lookup_append_single, hm]
      simp
    case isFalse hne =>
      exact hm

theorem buildImportant_lookup_contact (c pr rt tk bl : Option String) :
    (buildImportant c pr rt tk bl).lookup "contact" = c := by
  cases c <;> cases pr <;> cases rt <;> cases tk <;> cases bl <;> rfl

theorem buildImportant_lookup_privacy (c pr rt tk bl : Option String) :
    (buildImportant c pr rt tk bl).lookup "privacy_policy" = pr := by
  cases c <;> cases pr <;> cases rt <;> cases tk <;> cases bl <;> rfl

theorem buildImportant_lookup_returns (c pr rt tk bl : Option String) :
    (buildImportant c pr rt tk bl).lookup "return_refund_policy" = rt := by
  cases c <;> cases pr <;> cases rt <;> cases tk <;> cases bl <;> rfl

theorem buildImportant_lookup_about (c pr rt tk bl : Option String) :
    (buildImportant c pr rt tk bl).lookup "about" = none := by
  cases c <;> cases pr <;> cases rt <;> cases tk <;> cases bl <;> rfl

theorem buildRawPages_lookup_privacy (a c pv rt : Option String) :
    (buildRawPages a c pv rt).lookup "privacy_policy" =
      match pv with
      | some t => if t ≠ "" then some (pyTruncate t 5000) else none
      | none => none := by
  unfold buildRawPages
  rw [lookup_addTextEntry_ne _ _ _ _ (by decide)]
  exact lookup_addTextEntry_same _ _ _ (by
    rw [lookup_addTextEntry_ne _ _ _ _ (by decide), lookup_addTextEntry_ne _ _ _ _ (by decide)]
    rfl)

theorem buildRawPages_lookup_returns (a c pv rt : Option String) :
    (buildRawPages a c pv rt).lookup "return_refund_policy" =
      match rt with
      | some t => if t ≠ "" then some (pyTruncate t 5000) else none
      | none => none := by
  unfold buildRawPages
  exact lookup_addTextEntry_same _ _ _ (by
    rw [lookup_addTextEntry_ne _ _ _ _ (by decide), lookup_addTextEntry_ne _ _ _ _ (by decide),
      lookup_addTextEntry_ne _ _ _ _ (by decide)]
    rfl)

theorem buildRawPages_lookup_contact (a c pv rt : Option String) :
    (buildRawPages a c pv rt).lookup "contact" =
      match c with
      | some t => if t ≠ "" then some (pyTruncate t 5000) else none
      | none => none := by
  unfold buildRawPages
  rw [lookup_addTextEntry_ne _ _ _ _ (by decide), lookup_addTextEntry_ne _ _ _ _ (by decide)]
  exact lookup_addTextEntry_same _ _ _ (by
    rw [lookup_addTextEntry_ne _ _ _ _ (by decide)]
    rfl)

theorem buildRawPages_length (a c pv rt : Option String) :
    ∀ kv ∈ buildRawPages a c pv rt, kv.2.length ≤ 5000 := by
  intro kv hkv
  unfold buildRawPages at hkv
  rcases mem_addTextEntry _ _ _ _ hkv with h1 | ⟨t, rfl⟩
  · rcases mem_addTextEntry _ _ _ _ h1 with h2 | ⟨t, rfl⟩
    · rcases mem_addTextEntry _ _ _ _ h2 with h3 | ⟨t, rfl⟩
      · rcases mem_addTextEntry _ _ _ _ h3 with h4 | ⟨t, rfl⟩
        · exact absurd h4 (List.not_mem_nil kv)
        · exact pyTruncate_length t 5000
      · exact pyTruncate_length t 5000
    · exact pyTruncate_length t 5000
  · exact pyTruncate_length t 5000

/-- Inversion of a successful extraction: a reachable homepage, a clean
catalog, validated products, and the assembled profile. -/
theorem extract_ok_inv (fetch : Fetch) (url : String) (p : BrandContextM)
    (h : extract_brand_context fetch url = .ok p) :
    ∃ resp products, safe_get fetch url = some resp
      ∧ try_products_json fetch (normalize_base url) = .ok products
      ∧ products.all productValid = true
      ∧ p = assembleProfile fetch url (normalize_base url) resp.page products := by
  simp only [extract_brand_context] at h
  revert h
  cases hs : safe_get fetch url with
  | none =>
    intro h
    have h2 : (Except.error ExtractErr.notReachable : Except ExtractErr BrandContextM)
        = .ok p := h
    exact absurd h2 (by simp)
  | some resp =>
    cases hc : try_products_json fetch (normalize_base url) with
    | error e =>
      intro h
      have h2 : (Except.error ExtractErr.internal : Except ExtractErr BrandContextM)
          = .ok p := h
      exact absurd h2 (by simp)
    | ok products =>
      intro h
      have h2 : (if products.all productValid = true then
          Except.ok (assembleProfile fetch url (normalize_base url) resp.page products)
        else (Except.error ExtractErr.internal : Except ExtractErr BrandContextM)) = .ok p := h
      by_cases hv : products.all productValid = true
      · rw [if_pos hv] at h2
        injection h2 with h3
        exact ⟨resp, products, rfl, rfl, hv, h3.symm⟩
      · rw [if_neg hv] at h2
        exact absurd h2 (by simp)

theorem assembleProfile_important (fetch : Fetch) (url base : String) (doc : PageData)
    (products : List NormProduct) :
    (assembleProfile fetch url base doc products).important_links =
      buildImportant (roleScan (extract_nav_links doc.anchors base)).contact
        (privacyUrlOf fetch base (extract_nav_links doc.anchors base))
        (returnsUrlOf fetch base (extract_nav_links doc.anchors base))
        (roleScan (extract_nav_links doc.anchors base)).tracking
        (roleScan (extract_nav_links doc.anchors base)).blogs := rfl

theorem assembleProfile_raw (fetch : Fetch) (url base : String) (doc : PageData)
    (products : List NormProduct) :
    (assembleProfile fetch url base doc products).raw_pages =
      buildRawPages
        ((roleScan (extract_nav_links doc.anchors base)).about.map (extract_text_from_url fetch))
        ((roleScan (extract_nav_links doc.anchors base)).contact.map
          (extract_text_from_url fetch))
        ((privacyUrlOf fetch base (extract_nav_links doc.anchors base)).map
          (extract_text_from_url fetch))
        ((returnsUrlOf fetch base (extract_nav_links doc.anchors base)).map
          (extract_text_from_url fetch)) := rfl

/-- The homepage of the claim C6 counterexample: one privacy link. -/
def c6page : PageData :=
  { anchors := [{ href := "/pages/privacy", text := "Privacy Policy" }] }

/-- A network where the privacy page is fetched successfully but carries
no visible text. -/
def c6fetch : Fetch := fun u =>
  if u = "https://s.com" then some { status := 200, page := c6page }
  else if u = "https://s.com/pages/privacy" then
    some { status := 200, page := { strippedStrings := [] } }
  else none

/-- The profile the pipeline builds in the claim C6 counterexample. -/
def c6profile : BrandContextM :=
  { website := "https://s.com"
    title := none
    description := none
    products := []
    hero_products := []
    privacy_policy := some ""
    return_refund_policy := none
    faqs := []
    socials := []
    contacts_emails := []
    contacts_phones := []
    important_links := [("privacy_policy", "https://s.com/pages/privacy")]
    raw_pages := [] }

/-- Claim C6, counterexample: the privacy page is successfully fetched
(status 200) yet has empty visible text, so `important_links` carries the
`privacy_policy` key while `raw_pages` has no corresponding entry. -/
theorem claim_C6_counterexample :
    extract_brand_context c6fetch "https://s.com" = .ok c6profile
    ∧ c6profile.important_links.lookup "privacy_policy" = some "https://s.com/pages/privacy"
    ∧ (safe_get c6fetch "https://s.com/pages/privacy").isSome = true
    ∧ c6profile.raw_pages.lookup "privacy_policy" = none :=
  ⟨rfl, rfl, rfl, rfl⟩

/-- Claim C6, amended: in every constructed profile, each text-bearing
important-links key (`privacy_policy`, `return_refund_policy`, `contact`)
has a corresponding raw-pages entry whenever the text extraction for that page
succeeded with nonempty text (a successful fetch with empty visible text
leaves no entry — see the counterexample); the `about` role never appears
in the important-links map; and every raw-pages entry is truncated to at
most 5000 characters. -/
theorem claim_C6 (fetch : Fetch) (url : String) (p : BrandContextM)
    (h : extract_brand_context fetch url = .ok p) :
    (∀ kv ∈ p.raw_pages, kv.2.length ≤ 5000)
    ∧ p.important_links.lookup "about" = none
    ∧ (∀ u, p.important_links.lookup "privacy_policy" = some u →
        extract_text_from_url fetch u ≠ "" →
        p.raw_pages.lookup "privacy_policy" =
          some (pyTruncate (extract_text_from_url fetch u) 5000))
    ∧ (∀ u, p.important_links.lookup "return_refund_policy" = some u →
        extract_text_from_url fetch u ≠ "" →
        p.raw_pages.lookup "return_refund_policy" =
          some (pyTruncate (extract_text_from_url fetch u) 5000))
    ∧ (∀ u, p.important_links.lookup "contact" = some u →
        extract_text_from_url fetch u ≠ "" →
        p.raw_pages.lookup "contact" =
          some (pyTruncate (extract_text_from_url fetch u) 5000)) := by
  obtain ⟨resp, products, -, -, -, hp⟩ := extract_ok_inv fetch url p h
  subst hp
  rw [assembleProfile_important, assembleProfile_raw]
  refine ⟨buildRawPages_length _ _ _ _, buildImportant_lookup_about _ _ _ _ _, ?_, ?_, ?_⟩
  · intro u hu hne
    rw [buildImportant_lookup_privacy] at hu
    rw [buildRawPages_lookup_privacy, hu]
    simp [hne]
  · intro u hu hne
    rw [buildImportant_lookup_returns] at hu
    rw [buildRawPages_lookup_returns, hu]
    simp [hne]
  · intro u hu hne
    rw [buildImportant_lookup_contact] at hu
    rw [buildRawPages_lookup_contact, hu]
    simp [hne]

/-- The claim C6 witness network: the privacy page carries visible
text. -/
def c6wFetch : Fetch := fun u =>
  if u = "https://s.com" then some { status := 200, page := c6page }
  else if u = "https://s.com/pages/privacy" then
    some { status := 200, page := { strippedStrings := ["We", "respect", "your", "data."] } }
  else none

/-- The profile the pipeline builds in the claim C6 witness scenario. -/
def c6wProfile : BrandContextM :=
  { website := "https://s.com"
    title := none
    description := none
    products := []
    hero_products := []
    privacy_policy := some "We respect your data."
    return_refund_policy := none
    faqs := []
    socials := []
    contacts_emails := []
    contacts_phones := []
    important_links := [("privacy_policy", "https://s.com/pages/privacy")]
    raw_pages := [("privacy_policy", "We respect your data.")] }

/-- Witness for claim C6: with nonempty privacy-page text, the raw-pages
map carries the truncated text under the `privacy_policy` key. -/
theorem claim_C6_witness :
    c6wProfile.raw_pages.lookup "privacy_policy" =
      some (pyTruncate (extract_text_from_url c6wFetch "https://s.com/pages/privacy") 5000) :=
  (claim_C6 c6wFetch "https://s.com" c6wProfile rfl).2.2.1
    "https://s.com/pages/privacy" rfl (by decide)
